import Mathlib

/-!
# WinManager: the window-list engine of `src/main.c`

A shallow embedding of the list engine of the window switcher: the ordered
window list and its globals, the in-place swap (`SwapWindows`), the
reconciliation pass of `UpdateWindowList`, the classifier `IsValidWindow`, the
overlay state machine of `WindowProc` (`ShowTabsOverlay`, `HideTabsOverlay`, the
`WM_KEYDOWN` branch) and the persistence of the order (`SaveWindowOrder`,
`LoadWindowOrder`).

Modelling conventions

* `HWND` is the numeric value of the handle, `NULL` being `0`.
* A `wchar_t` buffer is the list of its code units up to the terminator.
* The pair `g_windows` / `g_windowCount` is one Lean list: `g_windowCount` is
  its length and the pointer `g_windows` is `NULL` exactly when the list is
  empty.  Every writer of the pair in the source keeps this: an array is only
  ever produced by `realloc` to `count + 1` elements right before `count` is
  incremented, and the two globals are always assigned together.
* `realloc` is taken to succeed.
* The Win32 queries the code makes are fields of an `OS` record, read as often
  as the code calls them.
* `int` values are `Int`. Index arithmetic moves by one inside
  `[0, g_windowCount)` and cannot leave the range of `int`; the subtractions on
  the rectangle in `IsValidWindow` can, and are taken in 32 bits (`toInt32`).
-/

namespace WinManager

/-- A window handle (`HWND`), by its numeric value; `NULL` is `0`. -/
abbrev HWND := Nat

/-- The content of a `wchar_t` buffer: its code units before the terminator. -/
abbrev WString := List Nat

/-- The struct `WindowInfo` of the source. -/
structure WindowInfo where
  hwnd : HWND
  title : WString
  className : WString
deriving DecidableEq, Repr

/-- The Win32 queries used by the list engine. -/
structure OS where
  /-- The liveness check `IsWindow(hwnd)`. -/
  IsWindow : HWND → Bool
  /-- The text `GetWindowTextW(hwnd, buf, 256)` leaves in `buf`. -/
  GetWindowTextW : HWND → WString
  /-- The answer of `IsIconic(hwnd)`. -/
  IsIconic : HWND → Bool

/-- The global variables of the tabs controller. -/
structure State where
  g_windows : List WindowInfo
  g_selectedIndex : Int
  g_showingTabs : Bool
  g_mainHwnd : HWND
  g_orderInitialized : Bool
  g_previouslyFocusedWindow : HWND
deriving DecidableEq, Repr

/-- The global `g_windowCount`: the number of entries of `g_windows`. -/
def State.g_windowCount (st : State) : Int := (st.g_windows.length : Int)

/-- The handles of a window list, in list order. -/
def handles (l : List WindowInfo) : List HWND := l.map (fun w => w.hwnd)

/-- The calls the modelled code makes that act on the desktop. -/
inductive Effect where
  /-- The call `InvalidateRect(hwnd, NULL, TRUE)` on the overlay. -/
  | InvalidateRect (hwnd : HWND)
  /-- The call `ShowWindow(hwnd, SW_HIDE)`. -/
  | ShowWindowHide (hwnd : HWND)
  /-- The call `ShowWindow(hwnd, SW_RESTORE)`. -/
  | ShowWindowRestore (hwnd : HWND)
  /-- The call `SetForegroundWindow(hwnd)`. -/
  | SetForegroundWindow (hwnd : HWND)
  /-- The call `SetFocus(hwnd)`. -/
  | SetFocus (hwnd : HWND)
  /-- The call `MessageBox(NULL, L"No windows found", L"Info", MB_OK)`. -/
  | MessageBox
  /-- The call `SetWindowPos(hwnd, HWND_TOPMOST, ..., SWP_SHOWWINDOW | SWP_NOACTIVATE)`. -/
  | SetWindowPos (hwnd : HWND)
  /-- The call `SetLayeredWindowAttributes(hwnd, 0, 220, LWA_ALPHA)`. -/
  | SetLayeredWindowAttributes (hwnd : HWND)
  /-- The call `SetActiveWindow(hwnd)`. -/
  | SetActiveWindow (hwnd : HWND)
  /-- The call `UpdateWindow(hwnd)`. -/
  | UpdateWindow (hwnd : HWND)
deriving DecidableEq, Repr

/-! ## `SwapWindows` (main.c 607-619) -/

/-- The function `SwapWindows(index1, index2)`: returns at once when the list
is absent, an index is negative or not below `g_windowCount`, or the indices
are equal; otherwise exchanges the two structs through `temp`. -/
def SwapWindows (index1 index2 : Int) (st : State) : State :=
  if st.g_windows.isEmpty || decide (index1 < 0) || decide (index2 < 0)
      || decide (index1 ≥ st.g_windowCount) || decide (index2 ≥ st.g_windowCount)
      || decide (index1 = index2) then
    st
  else
    match st.g_windows[index1.toNat]?, st.g_windows[index2.toNat]? with
    | some temp, some other =>
        { st with g_windows := (st.g_windows.set index1.toNat other).set index2.toNat temp }
    | _, _ => st

/-! ## `FindWindowInList` (main.c 622-630) -/

/-- The function `FindWindowInList(hwnd)`: the first index holding `hwnd`,
or `-1`. -/
def FindWindowInList (hwnd : HWND) (st : State) : Int :=
  match st.g_windows.findIdx? (fun w => w.hwnd == hwnd) with
  | some i => (i : Int)
  | none => -1

/-! ## `UpdateWindowList` (main.c 633-719) -/

/-- The inner loop of lines 673-678: does some entry of `tempWindows` carry
the handle `hwnd`? -/
def stillExists (tempWindows : List WindowInfo) (hwnd : HWND) : Bool :=
  tempWindows.any (fun t => t.hwnd == hwnd)

/-- One round of the loop of lines 670-690: the entry `w` of the old list is
appended to `newWindows`, with its title read again, when its handle is in
`tempWindows` and passes `IsWindow`. -/
def carryOverStep (os : OS) (tempWindows : List WindowInfo)
    (newWindows : List WindowInfo) (w : WindowInfo) : List WindowInfo :=
  if stillExists tempWindows w.hwnd && os.IsWindow w.hwnd then
    newWindows ++ [{ w with title := os.GetWindowTextW w.hwnd }]
  else
    newWindows

/-- The loop of lines 670-690 over the old list, starting from the empty
`newWindows`. -/
def carryOver (os : OS) (tempWindows : List WindowInfo) (old : List WindowInfo) :
    List WindowInfo :=
  old.foldl (carryOverStep os tempWindows) []

/-- The inner loop of lines 695-700: is the handle already in `newWindows`? -/
def alreadyInList (newWindows : List WindowInfo) (hwnd : HWND) : Bool :=
  newWindows.any (fun n => n.hwnd == hwnd)

/-- One round of the loop of lines 693-710: the snapshot entry `t` is appended
unless its handle is already in `newWindows`. -/
def appendNewStep (newWindows : List WindowInfo) (t : WindowInfo) : List WindowInfo :=
  if alreadyInList newWindows t.hwnd then newWindows else newWindows ++ [t]

/-- The loop of lines 693-710 over the snapshot. -/
def appendNew (newWindows : List WindowInfo) (tempWindows : List WindowInfo) :
    List WindowInfo :=
  tempWindows.foldl appendNewStep newWindows

/-- The function `UpdateWindowList` from line 656 on. `tempWindows` is the
list the enumeration loop of lines 640-654 has built: the valid windows in
`GetTopWindow`/`GetNextWindow` order. -/
def UpdateWindowList (os : OS) (tempWindows : List WindowInfo) (st : State) : State :=
  if !st.g_orderInitialized || st.g_windows.isEmpty then
    { st with g_windows := tempWindows, g_orderInitialized := true }
  else
    { st with g_windows := appendNew (carryOver os tempWindows st.g_windows) tempWindows }

/-! ## `HideTabsOverlay`, `FocusSelectedWindow` and the `WM_KEYDOWN` case -/

/-- The function `HideTabsOverlay(hwnd)` (main.c 463-467). -/
def HideTabsOverlay (hwnd : HWND) (st : State) : State × List Effect :=
  ({ st with g_showingTabs := false }, [Effect.ShowWindowHide hwnd])

/-- The function `FocusSelectedWindow()` (main.c 583-604): nothing when the
list is absent or the cursor is outside it or the target fails `IsWindow`;
otherwise restore the target if minimised, then raise and focus it. -/
def FocusSelectedWindow (os : OS) (st : State) : List Effect :=
  if st.g_windows.isEmpty || decide (st.g_selectedIndex < 0)
      || decide (st.g_selectedIndex ≥ st.g_windowCount) then
    []
  else
    match st.g_windows[st.g_selectedIndex.toNat]? with
    | none => []
    | some target =>
        if !os.IsWindow target.hwnd then []
        else
          (if os.IsIconic target.hwnd then [Effect.ShowWindowRestore target.hwnd] else [])
            ++ [Effect.SetForegroundWindow target.hwnd, Effect.SetFocus target.hwnd]

/-- The virtual-key code `VK_UP` of `windows.h`. -/
def VK_UP : Nat := 0x26
/-- The virtual-key code `VK_DOWN` of `windows.h`. -/
def VK_DOWN : Nat := 0x28
/-- The virtual-key code `VK_RETURN` of `windows.h`. -/
def VK_RETURN : Nat := 0x0D
/-- The virtual-key code `VK_ESCAPE` of `windows.h`. -/
def VK_ESCAPE : Nat := 0x1B

/-- The `WM_KEYDOWN` case of `WindowProc` (main.c 126-196) for the overlay
window `hwnd`, the key `wParam` and the sampled state `ctrlPressed` of the
Ctrl key. The debug caption written with `SetWindowTextW` is not part of the
model. -/
def WindowProc_WM_KEYDOWN (os : OS) (hwnd : HWND) (wParam : Nat) (ctrlPressed : Bool)
    (st : State) : State × List Effect :=
  if !st.g_showingTabs then (st, [])
  else if wParam = VK_UP then
    if ctrlPressed then
      if st.g_selectedIndex > 0 then
        let st1 := SwapWindows st.g_selectedIndex (st.g_selectedIndex - 1) st
        ({ st1 with g_selectedIndex := st1.g_selectedIndex - 1 }, [Effect.InvalidateRect hwnd])
      else (st, [])
    else
      if st.g_selectedIndex > 0 then
        ({ st with g_selectedIndex := st.g_selectedIndex - 1 }, [Effect.InvalidateRect hwnd])
      else (st, [])
  else if wParam = VK_DOWN then
    if ctrlPressed then
      if st.g_selectedIndex < st.g_windowCount - 1 then
        let st1 := SwapWindows st.g_selectedIndex (st.g_selectedIndex + 1) st
        ({ st1 with g_selectedIndex := st1.g_selectedIndex + 1 }, [Effect.InvalidateRect hwnd])
      else (st, [])
    else
      if st.g_selectedIndex < st.g_windowCount - 1 then
        ({ st with g_selectedIndex := st.g_selectedIndex + 1 }, [Effect.InvalidateRect hwnd])
      else (st, [])
  else if wParam = VK_RETURN then
    let focus := FocusSelectedWindow os st
    let hidden := HideTabsOverlay hwnd st
    (hidden.1, focus ++ hidden.2)
  else if wParam = VK_ESCAPE then
    HideTabsOverlay hwnd st
  else if 0x31 ≤ wParam ∧ wParam ≤ 0x39 then
    let windowIndex : Int := (wParam : Int) - 0x31
    if windowIndex ≥ 0 ∧ windowIndex < st.g_windowCount then
      let st1 := { st with g_selectedIndex := windowIndex }
      let focus := FocusSelectedWindow os st1
      let hidden := HideTabsOverlay hwnd st1
      (hidden.1, focus ++ hidden.2)
    else (st, [])
  else (st, [])

/-! ## `IsValidWindow` (main.c 252-410) -/

/-- The struct `RECT` of `windows.h`; its four fields are `LONG` values. -/
structure RECT where
  left : Int
  top : Int
  right : Int
  bottom : Int
deriving DecidableEq, Repr

/-- The Win32 queries of the classifier, of the enumeration and of the overlay,
on top of those of `OS`. -/
structure Desktop extends OS where
  /-- The answer of `IsWindowVisible(hwnd)`. -/
  IsWindowVisible : HWND → Bool
  /-- The text `GetClassNameW(hwnd, buf, 256)` leaves in `buf`. -/
  GetClassNameW : HWND → WString
  /-- The value of `GetWindowLong(hwnd, GWL_STYLE)`, as a 32-bit pattern. -/
  GetStyle : HWND → Nat
  /-- The value of `GetWindowLong(hwnd, GWL_EXSTYLE)`, as a 32-bit pattern. -/
  GetExStyle : HWND → Nat
  /-- The rectangle `GetWindowRect(hwnd, &rect)` fills in, `none` when the call
  fails. -/
  GetWindowRect : HWND → Option RECT
  /-- The answer of `GetParent(hwnd)`, `0` for `NULL`. -/
  GetParent : HWND → HWND
  /-- The answer of `GetDesktopWindow()`. -/
  GetDesktopWindow : HWND
  /-- The answer of `GetForegroundWindow()`. -/
  GetForegroundWindow : HWND
  /-- The handles `GetTopWindow(NULL)` and then `GetNextWindow(hwnd, GW_HWNDNEXT)`
  return, up to the first `NULL`. -/
  zOrder : List HWND

/-- The wide string literal `L"..."` with the text `s`. -/
def wide (s : String) : WString := s.toList.map Char.toNat

/-- The test `wcsstr(str, strSearch) != NULL`: `strSearch` occurs in `str` as a
run of consecutive units. -/
def wcsstr (str strSearch : WString) : Bool :=
  str.tails.any (fun t => strSearch.isPrefixOf t)

/-- The array `excludedTitles` (lines 267-282). -/
def excludedTitles : List WString :=
  [wide "RZMonitorForegroundWindow", wide "Definições", wide "NVIDIA GeForce Overlay",
   wide "Program Manager", wide "Desktop Window Manager", wide "Windows Security",
   wide "Action Center", wide "Microsoft Text Input Application",
   wide "Windows Input Experience", wide "Cortana", wide "Search",
   wide "Windows Shell Experience Host", wide "Background Task Host"]

/-- The array `allowedTitles` (lines 292-303). -/
def allowedTitles : List WString :=
  [wide "Steam", wide "Discord", wide "Spotify", wide "Chrome", wide "Firefox",
   wide "Visual Studio", wide "Code", wide "Notepad", wide "Explorer"]

/-- The array `excludedClasses` (lines 323-342). -/
def excludedClasses : List WString :=
  [wide "Shell_TrayWnd", wide "Shell_SecondaryTrayWnd", wide "Progman", wide "WorkerW",
   wide "DV2ControlHost", wide "Windows.UI.Core.CoreWindow", wide "ApplicationFrameWindow",
   wide "Windows.UI.Composition.DesktopWindowContentBridge", wide "ForegroundStaging",
   wide "MultitaskingViewFrame", wide "EdgeUiInputTopWndClass", wide "NativeHWNDHost",
   wide "Shell_InputSwitchTopLevelWindow", wide "Windows.Internal.CapturePicker",
   wide "XamlExplorerHostIslandWindow", wide "CortanaUI", wide "SearchUI"]

/-- The style bit `WS_VISIBLE` of `windows.h`. -/
def WS_VISIBLE : Nat := 0x10000000
/-- The style bits `WS_CAPTION` of `windows.h`. -/
def WS_CAPTION : Nat := 0x00C00000
/-- The style bit `WS_POPUP` of `windows.h`. -/
def WS_POPUP : Nat := 0x80000000
/-- The extended style bit `WS_EX_TOOLWINDOW` of `windows.h`. -/
def WS_EX_TOOLWINDOW : Nat := 0x00000080

/-- The C test `value & mask` read as a truth value. -/
def hasBits (value mask : Nat) : Bool := (value &&& mask) != 0

/-- The value an `int` of 32 bits holds for the integer `x`: `x` itself when
it lies between `-2^31` and `2^31 - 1`, and otherwise the integer of that range
that differs from `x` by a multiple of `2^32`. The subtractions
`rect.right - rect.left` and `rect.bottom - rect.top` of lines 364-365, 386-387
and 399-400 are done on `LONG`, which has 32 bits, and stored in an `int`. -/
def toInt32 (x : Int) : Int := (x + 2147483648) % 4294967296 - 2147483648

/-- Lines 356-372 of `IsValidWindow`: `true` when the block returns `FALSE`.
A tool window is refused when its class contains `Shell_` or `DV2ControlHost`,
and otherwise when its rectangle can be read and is narrower than 200 or lower
than 100. -/
def toolWindowRefused (d : Desktop) (hwnd : HWND) (className : WString) (exStyle : Nat) :
    Bool :=
  if hasBits exStyle WS_EX_TOOLWINDOW then
    if wcsstr className (wide "Shell_") || wcsstr className (wide "DV2ControlHost") then
      true
    else
      match d.GetWindowRect hwnd with
      | some rect =>
          let width := toInt32 (rect.right - rect.left)
          let height := toInt32 (rect.bottom - rect.top)
          if width < 200 ∨ height < 100 then true else false
      | none => false
  else
    false

/-- Lines 374-409 of `IsValidWindow`: the value the function returns once the
tool-window block has been passed. -/
def styleAndSizeRules (d : Desktop) (hwnd : HWND) (style : Nat) : Bool :=
  if !hasBits style WS_VISIBLE then false
  else
    let parent := d.GetParent hwnd
    if parent != 0 && parent != d.GetDesktopWindow then false
    else if (!hasBits style WS_CAPTION && !hasBits style WS_POPUP)
        && (match d.GetWindowRect hwnd with
            | some rect =>
                let width := toInt32 (rect.right - rect.left)
                let height := toInt32 (rect.bottom - rect.top)
                if width < 200 ∨ height < 100 then true else false
            | none => true) then
      false
    else
      match d.GetWindowRect hwnd with
      | some rect =>
          let width := toInt32 (rect.right - rect.left)
          let height := toInt32 (rect.bottom - rect.top)
          if width < 100 ∨ height < 50 then false
          else if rect.left < -1000 ∨ rect.top < -1000 then false
          else true
      | none => true

/-- The function `IsValidWindow(hwnd)` (main.c 252-410); `g_mainHwnd` is the
global it reads. -/
def IsValidWindow (d : Desktop) (g_mainHwnd : HWND) (hwnd : HWND) : Bool :=
  if !d.IsWindowVisible hwnd then false
  else if hwnd = g_mainHwnd then false
  else
    let title := d.GetWindowTextW hwnd
    if title.length = 0 then false
    else
      let className := d.GetClassNameW hwnd
      if excludedTitles.any (fun p => wcsstr title p) then false
      else if allowedTitles.any (fun p => wcsstr title p) then
        let parent := d.GetParent hwnd
        if parent != 0 && parent != d.GetDesktopWindow then false else true
      else if excludedClasses.any (fun p => wcsstr className p) then false
      else if toolWindowRefused d hwnd className (d.GetExStyle hwnd) then false
      else styleAndSizeRules d hwnd (d.GetStyle hwnd)

/-! ## The enumeration loop of `UpdateWindowList` (main.c 640-654) -/

/-- One round of the loop of lines 641-654: a valid window is appended to
`tempWindows` with its title and class name. -/
def enumerateStep (d : Desktop) (g_mainHwnd : HWND) (tempWindows : List WindowInfo)
    (hwnd : HWND) : List WindowInfo :=
  if IsValidWindow d g_mainHwnd hwnd then
    tempWindows ++ [{ hwnd := hwnd, title := d.GetWindowTextW hwnd,
                      className := d.GetClassNameW hwnd }]
  else
    tempWindows

/-- The list `tempWindows` the loop of lines 640-654 builds. -/
def enumerateWindows (d : Desktop) (g_mainHwnd : HWND) : List WindowInfo :=
  d.zOrder.foldl (enumerateStep d g_mainHwnd) []

/-! ## `ShowTabsOverlay` (main.c 413-460) and `WindowProc` (main.c 107-223) -/

/-- The function `ShowTabsOverlay(hwnd)`. `foreground` is the answer of
`GetForegroundWindow()` and `tempWindows` the list the enumeration loop of
`UpdateWindowList` builds during the call. -/
def ShowTabsOverlay (os : OS) (foreground : HWND) (tempWindows : List WindowInfo)
    (hwnd : HWND) (st : State) : State × List Effect :=
  let st1 := { st with g_previouslyFocusedWindow := foreground }
  let st2 := { st1 with g_selectedIndex := 0 }
  let st3 := UpdateWindowList os tempWindows st2
  if st3.g_windowCount = 0 then
    (st3, [Effect.MessageBox])
  else
    ({ st3 with g_showingTabs := true },
     [Effect.SetWindowPos hwnd, Effect.SetLayeredWindowAttributes hwnd,
      Effect.SetForegroundWindow hwnd, Effect.SetActiveWindow hwnd, Effect.SetFocus hwnd,
      Effect.InvalidateRect hwnd, Effect.UpdateWindow hwnd])

/-- The messages of `WindowProc` that reach the list engine. -/
inductive Msg where
  /-- The message `WM_HOTKEY` with the hotkey identifier `wParam`. -/
  | WM_HOTKEY (wParam : Nat)
  /-- The message `WM_KEYDOWN` with the key `wParam`; `ctrlPressed` is the
  sampled state of the Ctrl key. -/
  | WM_KEYDOWN (wParam : Nat) (ctrlPressed : Bool)
  /-- The message `WM_ACTIVATE` with its `wParam`. -/
  | WM_ACTIVATE (wParam : Nat)
deriving DecidableEq, Repr

/-- The activation state `WA_INACTIVE` of `windows.h`. -/
def WA_INACTIVE : Nat := 0

/-- The macro `LOWORD` of `windows.h`. -/
def LOWORD (wParam : Nat) : Nat := wParam % 65536

/-- The function `WindowProc(hwnd, uMsg, wParam, lParam)` on the three messages
of `Msg`. `foreground` and `tempWindows` are what a call of `ShowTabsOverlay`
made by this message gets from `GetForegroundWindow` and from the enumeration
loop. -/
def WindowProc (os : OS) (foreground : HWND) (tempWindows : List WindowInfo)
    (hwnd : HWND) (uMsg : Msg) (st : State) : State × List Effect :=
  match uMsg with
  | Msg.WM_HOTKEY wParam =>
      if wParam = 1 then
        if !st.g_showingTabs then ShowTabsOverlay os foreground tempWindows hwnd st
        else HideTabsOverlay hwnd st
      else (st, [])
  | Msg.WM_KEYDOWN wParam ctrlPressed => WindowProc_WM_KEYDOWN os hwnd wParam ctrlPressed st
  | Msg.WM_ACTIVATE wParam =>
      if LOWORD wParam = WA_INACTIVE ∧ st.g_showingTabs = true then HideTabsOverlay hwnd st
      else (st, [])

/-- The function `WindowProc` on the desktop `d`: the foreground window and the
enumeration are those of `d`. -/
def WindowProcOn (d : Desktop) (hwnd : HWND) (uMsg : Msg) (st : State) :
    State × List Effect :=
  WindowProc d.toOS d.GetForegroundWindow (enumerateWindows d st.g_mainHwnd) hwnd uMsg st

/-! ## `SaveWindowOrder` (main.c 722-736) and `LoadWindowOrder` (main.c 739-800)

The file `winmanager_order.txt` is the list of the characters of its text stream
(`none` when `fopen` for reading fails). The conversions `%d`, the white-space
directive of `fscanf` and `fgets` are those of the C standard. The conversions the
standard leaves to the platform (`%p`, `%ls`, `MultiByteToWideChar`) are fields of
a `CRuntime` record. `malloc` and `realloc` are taken to succeed and the count in
the file is taken to fit an `int`. The locals `hwndPtr` and `title` of the loop
of `LoadWindowOrder` have no initialiser and the return values of `sscanf` and
`MultiByteToWideChar` are not looked at: a round in which a conversion is not
made works on what the locals already hold, which is what the round before
left there (the locals keep their storage), and in the first round a value the
`CRuntime` record names. -/

/-- The conversions of the C runtime and of Win32 the persistence code relies
on, and the outcome of opening the file for writing. -/
structure CRuntime where
  /-- The characters `fprintf(file, "%p", p)` writes. -/
  fmt_p : HWND → List Nat
  /-- The characters `fprintf(file, "%ls", s)` writes. -/
  fmt_ls : WString → List Nat
  /-- The outcome of `sscanf(s, "%p", &hwndPtr)`: `some p` when a pointer is read
  and `p` stored in `hwndPtr`, `none` when no pointer can be read from `s` and
  `hwndPtr` is left as it was. -/
  scan_p : List Nat → Option HWND
  /-- The text the array `title` holds, up to its terminator, after
  `MultiByteToWideChar(CP_UTF8, 0, s, -1, title, 256)`, where `old` is the text
  it held before: the converted text when the call converts `s`, and what the
  call leaves of `old` when it fails. -/
  MultiByteToWideChar : (s : List Nat) → (old : WString) → WString
  /-- Does `fopen("winmanager_order.txt", "w")` succeed? -/
  fopen_w : Bool
  /-- The value the local `hwndPtr` (line 761) holds when the loop of
  `LoadWindowOrder` is entered. -/
  uninit_hwndPtr : HWND
  /-- The text the local array `title` (line 762) holds when the loop of
  `LoadWindowOrder` is entered. -/
  uninit_title : WString

/-- The C predicate `isspace` in the "C" locale. -/
def isspace (c : Nat) : Bool := c == 32 || (decide (9 ≤ c) && decide (c ≤ 13))

/-- The C predicate `isdigit`. -/
def isdigit (c : Nat) : Bool := decide (48 ≤ c) && decide (c ≤ 57)

/-- The decimal digits of `n`, most significant first; `fuel` bounds the number
of digits. -/
def decimalFuel : Nat → Nat → List Nat
  | 0, _ => []
  | fuel + 1, n =>
      if n < 10 then [48 + n] else decimalFuel fuel (n / 10) ++ [48 + n % 10]

/-- The characters `fprintf(file, "%d", n)` writes. -/
def fmt_d (n : Int) : List Nat :=
  if n < 0 then 45 :: decimalFuel (n.natAbs + 1) n.natAbs
  else decimalFuel (n.toNat + 1) n.toNat

/-- The digits at the head of the input, read as a decimal number on top of
`acc`, and the input left. -/
def scanDigits (acc : Nat) : List Nat → Nat × List Nat
  | [] => (acc, [])
  | c :: cs => if isdigit c then scanDigits (acc * 10 + (c - 48)) cs else (acc, c :: cs)

/-- The optional sign `-` or `+` in front of a number: whether the number is
negative, and the input left. -/
def scanSign : List Nat → Bool × List Nat
  | 45 :: r => (true, r)
  | 43 :: r => (false, r)
  | s => (false, s)

/-- The call `fscanf(file, "%d\n", &savedCount)`: `none` when it does not return
`1`, otherwise the number read and the stream left, white space skipped on both
sides of the number. -/
def fscanf_d (input : List Nat) : Option (Int × List Nat) :=
  let signed := scanSign (input.dropWhile isspace)
  match signed.2 with
  | [] => none
  | c :: _ =>
      if isdigit c then
        let r := scanDigits 0 signed.2
        some ((if signed.1 then -(r.1 : Int) else (r.1 : Int)), r.2.dropWhile isspace)
      else none

/-- The successive lines `fgets(line, size, file)` returns until the end of the
stream; `cur` is the part of the current line already read. A line ends after
a newline or when it holds `size - 1` characters. -/
def fgetsLines (size : Nat) (cur : List Nat) : List Nat → List (List Nat)
  | [] => if cur.isEmpty then [] else [cur]
  | c :: cs =>
      if c = 10 ∨ (cur ++ [c]).length + 1 ≥ size then
        (cur ++ [c]) :: fgetsLines size [] cs
      else
        fgetsLines size (cur ++ [c]) cs

/-- Lines 775-778 of `LoadWindowOrder`: a newline at the end of the title is
removed. -/
def stripNewline (title : WString) : WString :=
  if title.getLast? = some 10 then title.dropLast else title

/-- The locals of `LoadWindowOrder` the loop of lines 760-789 works on: the
array `savedWindows` up to `loadedCount`, and `hwndPtr` and `title`, which are
declared in the loop body without an initialiser. -/
structure LoadLocals where
  savedWindows : List WindowInfo
  hwndPtr : HWND
  title : WString
deriving DecidableEq, Repr

/-- One round of the loop of lines 760-789 of `LoadWindowOrder` on the line
`fgets` has returned; once `loadedCount` has reached `savedCount` the loop is
over and the locals stay as they are. A line without `|` is skipped. Otherwise
`sscanf` stores in `hwndPtr` the pointer it reads from the text before the first
`|`, or leaves `hwndPtr` alone when it reads none; `MultiByteToWideChar` works
on `title` from the text after the `|`, and a newline at the end of `title` is
removed; the entry is kept when the handle in `hwndPtr` passes `IsWindow` and
`IsValidWindow`. -/
def loadLine (d : Desktop) (rt : CRuntime) (g_mainHwnd : HWND) (savedCount : Int)
    (loc : LoadLocals) (line : List Nat) : LoadLocals :=
  if ¬ ((loc.savedWindows.length : Int) < savedCount) then loc
  else
    let text := line.takeWhile (fun c => c != 0)
    if !text.contains 124 then loc
    else
      let hwndPtr :=
        match rt.scan_p (text.takeWhile (fun c => c != 124)) with
        | some p => p
        | none => loc.hwndPtr
      let title := stripNewline
        (rt.MultiByteToWideChar ((text.dropWhile (fun c => c != 124)).tail) loc.title)
      let hwnd := hwndPtr
      if d.IsWindow hwnd && IsValidWindow d g_mainHwnd hwnd then
        { savedWindows := loc.savedWindows
            ++ [{ hwnd := hwnd, title := title, className := d.GetClassNameW hwnd }]
          hwndPtr := hwndPtr
          title := title }
      else
        { savedWindows := loc.savedWindows, hwndPtr := hwndPtr, title := title }

/-- The function `LoadWindowOrder()` on the file content `file`. -/
def LoadWindowOrder (d : Desktop) (rt : CRuntime) (file : Option (List Nat)) (st : State) :
    State :=
  match file with
  | none => st
  | some content =>
      match fscanf_d content with
      | none => st
      | some (savedCount, rest) =>
          if savedCount ≤ 0 then st
          else
            let savedWindows :=
              ((fgetsLines 512 [] rest).foldl (loadLine d rt st.g_mainHwnd savedCount)
                { savedWindows := [], hwndPtr := rt.uninit_hwndPtr,
                  title := rt.uninit_title }).savedWindows
            if savedWindows.length > 0 then
              { st with g_windows := savedWindows, g_orderInitialized := true }
            else st

/-- The characters the loop of lines 730-733 of `SaveWindowOrder` writes for one
entry: `"%p|%ls\n"`. -/
def saveLine (rt : CRuntime) (w : WindowInfo) : List Nat :=
  rt.fmt_p w.hwnd ++ [124] ++ rt.fmt_ls w.title ++ [10]

/-- The function `SaveWindowOrder()`: the content of the file after the call,
`file` being its content before. -/
def SaveWindowOrder (rt : CRuntime) (st : State) (file : Option (List Nat)) :
    Option (List Nat) :=
  if st.g_windows.isEmpty || decide (st.g_windowCount = 0) then file
  else if !rt.fopen_w then file
  else
    some (st.g_windows.foldl (fun out w => out ++ saveLine rt w)
      (fmt_d st.g_windowCount ++ [10]))

/-! ## Specification vocabulary -/

/-- The handle `a` occurs at an earlier position of `l` than the handle `b`:
`[a, b]` is a subsequence of `l`. -/
def Precedes (a b : HWND) (l : List HWND) : Prop := List.Sublist [a, b] l

instance (a b : HWND) (l : List HWND) : Decidable (Precedes a b l) := by
  unfold Precedes; infer_instance

/-- The reconciliation pass takes its first-run branch (line 656). -/
def firstRun (st : State) : Bool := !st.g_orderInitialized || st.g_windows.isEmpty

/-- Both indices of a swap are rows of the list and they differ. -/
def SwapInRange (index1 index2 : Int) (st : State) : Prop :=
  0 ≤ index1 ∧ index1 < st.g_windowCount ∧ 0 ≤ index2 ∧ index2 < st.g_windowCount
    ∧ index1 ≠ index2

instance (i j : Int) (st : State) : Decidable (SwapInRange i j st) := by
  unfold SwapInRange; infer_instance

/-- The index `x` clamped into the rows `[0, n)` of a list of `n` entries. -/
def clampIndex (x n : Int) : Int := max 0 (min x (n - 1))

/-- The link between the two globals `g_orderInitialized` and `g_windows`:
while the flag is still false the list is empty. It holds at program start
(`g_windows = NULL`, `g_orderInitialized = FALSE`) and every function that
assigns `g_windows` sets the flag in the same breath (`UpdateWindowList` line
661, `LoadWindowOrder` line 796), so no run of the program leaves it. -/
def OrderConsistent (st : State) : Prop :=
  st.g_orderInitialized = false → st.g_windows = []

instance (st : State) : Decidable (OrderConsistent st) := by
  unfold OrderConsistent; infer_instance

/-- The handle `n` is new for the pass: it is in the snapshot `S` and not in
the previous list. -/
def NewHandle (S : List WindowInfo) (st : State) (n : HWND) : Prop :=
  n ∈ handles S ∧ n ∉ handles st.g_windows

/-- The handle `c` is carried over by the pass: the first loop (lines 670-690)
runs and copies the entries of the previous list with this handle, which is
in the snapshot `S` and passes `IsWindow`. -/
def CarriedOver (os : OS) (S : List WindowInfo) (st : State) (c : HWND) : Prop :=
  firstRun st = false ∧ c ∈ handles st.g_windows ∧ c ∈ handles S ∧ os.IsWindow c = true

/-- The entries the loop of lines 693-710 appends to `newWindows`, listed by
recursion on the snapshot (`appendNew_eq` ties it to the loop). -/
def newTail : List WindowInfo → List WindowInfo → List WindowInfo
  | _, [] => []
  | newWindows, t :: ts =>
      if alreadyInList newWindows t.hwnd then newTail newWindows ts
      else t :: newTail (newWindows ++ [t]) ts

/-! ## Concrete windows and states used to evaluate the model -/

/-- A window with handle `101`. -/
def winA : WindowInfo := { hwnd := 101, title := [65], className := [88] }
/-- A window with handle `102`. -/
def winB : WindowInfo := { hwnd := 102, title := [66], className := [88] }
/-- A window with handle `103`. -/
def winC : WindowInfo := { hwnd := 103, title := [67], className := [88] }
/-- A window with handle `104`. -/
def winD : WindowInfo := { hwnd := 104, title := [68], className := [88] }
/-- A window with handle `105`. -/
def winE : WindowInfo := { hwnd := 105, title := [69], className := [88] }

/-- A desktop on which every handle passes `IsWindow` and no window is
minimised; the title of the window `h` is the one unit `h`. -/
def osAllLive : OS :=
  { IsWindow := fun _ => true, GetWindowTextW := fun h => [h], IsIconic := fun _ => false }

/-- The desktop of `osAllLive` after the window `101` has been destroyed. -/
def osStale101 : OS :=
  { IsWindow := fun h => h != 101, GetWindowTextW := fun h => [h], IsIconic := fun _ => false }

/-- A hidden overlay whose initialized list is `l`, cursor on the first row. -/
def hiddenWith (l : List WindowInfo) : State :=
  { g_windows := l, g_selectedIndex := 0, g_showingTabs := false, g_mainHwnd := 1,
    g_orderInitialized := true, g_previouslyFocusedWindow := 0 }

/-- A shown overlay whose initialized list is `l`, cursor on row `sel`. -/
def shownWith (l : List WindowInfo) (sel : Int) : State :=
  { g_windows := l, g_selectedIndex := sel, g_showingTabs := true, g_mainHwnd := 1,
    g_orderInitialized := true, g_previouslyFocusedWindow := 0 }

/-- The state at program start: no list, nothing initialized. -/
def initialState : State :=
  { g_windows := [], g_selectedIndex := 0, g_showingTabs := false, g_mainHwnd := 1,
    g_orderInitialized := false, g_previouslyFocusedWindow := 0 }

/-! ## The overlay state machine: vocabulary -/

/-- The globals when `WinMain` calls `LoadWindowOrder`: only `g_mainHwnd` has
been assigned. -/
def startState (g_mainHwnd : HWND) : State :=
  { g_windows := [], g_selectedIndex := 0, g_showingTabs := false, g_mainHwnd := g_mainHwnd,
    g_orderInitialized := false, g_previouslyFocusedWindow := 0 }

/-- The states the program reaches: the state `LoadWindowOrder` leaves at start
(whatever the file and the desktop), and from there the state after any
message of `Msg` handled by `WindowProc`, whatever the answers of the OS and
whatever list the enumeration yields. -/
inductive Reachable : State → Prop where
  | start (d : Desktop) (rt : CRuntime) (file : Option (List Nat)) (g_mainHwnd : HWND) :
      Reachable (LoadWindowOrder d rt file (startState g_mainHwnd))
  | step (os : OS) (foreground : HWND) (tempWindows : List WindowInfo) (hwnd : HWND)
      (uMsg : Msg) (st : State) :
      Reachable st → Reachable (WindowProc os foreground tempWindows hwnd uMsg st).1

/-- The cursor is a row of the list whenever the list has rows. -/
def CursorInRange (st : State) : Prop :=
  0 < st.g_windowCount → 0 ≤ st.g_selectedIndex ∧ st.g_selectedIndex < st.g_windowCount

instance (st : State) : Decidable (CursorInRange st) := by
  unfold CursorInRange; infer_instance

/-! ## A concrete desktop and C runtime -/

/-- A desktop on top of `osAllLive`: every window is visible, top-level, has a
caption, class `AppWindow` and the rectangle `(0, 0, 800, 600)`; the z-order is
`101, 102, 103`. -/
def desktopPlain : Desktop :=
  { toOS := osAllLive
    IsWindowVisible := fun _ => true
    GetClassNameW := fun _ => wide "AppWindow"
    GetStyle := fun _ => 0x10C00000
    GetExStyle := fun _ => 0
    GetWindowRect := fun _ => some { left := 0, top := 0, right := 800, bottom := 600 }
    GetParent := fun _ => 0
    GetDesktopWindow := 10
    GetForegroundWindow := 101
    zOrder := [101, 102, 103] }

/-- A C runtime that prints a pointer as its decimal value and reads one from
a text that starts with a digit, writes and reads a title unit by unit, and
opens the file; the locals of the loop of `LoadWindowOrder` hold `0` and the
empty text at first. -/
def rtDecimal : CRuntime :=
  { fmt_p := fun h => decimalFuel (h + 1) h
    fmt_ls := fun t => t
    scan_p := fun s =>
      match s with
      | [] => none
      | c :: _ => if isdigit c then some (scanDigits 0 s).1 else none
    MultiByteToWideChar := fun s _ => s
    fopen_w := true
    uninit_hwndPtr := 0
    uninit_title := [] }

/-! ## The classifier: vocabulary -/

/-- The title contains no entry of `excludedTitles` as a substring. -/
def NoDeniedTitle (title : WString) : Prop := ∀ p ∈ excludedTitles, ¬ p <:+: title

/-- The title contains an entry of `allowedTitles` as a substring. -/
def HasAllowedTitle (title : WString) : Prop := ∃ p ∈ allowedTitles, p <:+: title

/-- The class name contains no entry of `excludedClasses` as a substring. -/
def NoDeniedClass (className : WString) : Prop := ∀ p ∈ excludedClasses, ¬ p <:+: className

/-- The window has no parent or its parent is the desktop root. -/
def TopLevel (d : Desktop) (hwnd : HWND) : Prop :=
  d.GetParent hwnd = 0 ∨ d.GetParent hwnd = d.GetDesktopWindow

/-- The width `right - left` and the height `bottom - top` of the rectangle fit
an `int`, so that the subtractions of lines 364-365, 386-387 and 399-400 give
them exactly. The extent of a window is an `int` wherever Win32 takes one
(`CreateWindow`, `MoveWindow`, `SetWindowPos`); outside this range C leaves the
subtraction undefined. -/
def RectFitsInt (rect : RECT) : Prop :=
  -2147483648 ≤ rect.right - rect.left ∧ rect.right - rect.left ≤ 2147483647
    ∧ -2147483648 ≤ rect.bottom - rect.top ∧ rect.bottom - rect.top ≤ 2147483647

instance (rect : RECT) : Decidable (RectFitsInt rect) := by
  unfold RectFitsInt; infer_instance

/-- The window passes rules 1-4 of the classifier: it is visible, is not the
overlay, has a title, and the title matches no deny-list entry. -/
def PassesRules1to4 (d : Desktop) (g_mainHwnd hwnd : HWND) : Prop :=
  d.IsWindowVisible hwnd = true ∧ hwnd ≠ g_mainHwnd ∧ d.GetWindowTextW hwnd ≠ []
    ∧ NoDeniedTitle (d.GetWindowTextW hwnd)

/-- The window passes rules 1-6 without matching the allow list. -/
def PassesRules1to6 (d : Desktop) (g_mainHwnd hwnd : HWND) : Prop :=
  PassesRules1to4 d g_mainHwnd hwnd ∧ ¬ HasAllowedTitle (d.GetWindowTextW hwnd)
    ∧ NoDeniedClass (d.GetClassNameW hwnd)

/-- The desktop `desktopPlain` with every title `Google Search - Chrome`, which
contains the deny-list entry `Search` and the allow-list entry `Chrome`. -/
def desktopSearchChrome : Desktop :=
  { desktopPlain with
    toOS := { osAllLive with GetWindowTextW := fun _ => wide "Google Search - Chrome" } }

/-- The desktop `desktopPlain` with every title `Untitled - Notepad` (an
allow-list match), the deny-listed class `Shell_TrayWnd`, no style bit, the
tool-window bit and an empty rectangle. -/
def desktopNotepad : Desktop :=
  { desktopPlain with
    toOS := { osAllLive with GetWindowTextW := fun _ => wide "Untitled - Notepad" }
    GetClassNameW := fun _ => wide "Shell_TrayWnd"
    GetStyle := fun _ => 0
    GetExStyle := fun _ => 0x80
    GetWindowRect := fun _ => some { left := 0, top := 0, right := 0, bottom := 0 } }

/-- The desktop `desktopPlain` with every window a tool window of class
`Shell_Popup` (not on the class deny list). -/
def desktopShellTool : Desktop :=
  { desktopPlain with
    GetClassNameW := fun _ => wide "Shell_Popup"
    GetExStyle := fun _ => 0x80 }

/-- The desktop `desktopPlain` with every window a tool window 150 wide and
600 high. -/
def desktopSmallTool : Desktop :=
  { desktopPlain with
    GetExStyle := fun _ => 0x80
    GetWindowRect := fun _ => some { left := 0, top := 0, right := 150, bottom := 600 } }

/-- The desktop `desktopPlain` with every window a tool window of 800 by 600. -/
def desktopLargeTool : Desktop :=
  { desktopPlain with GetExStyle := fun _ => 0x80 }

/-- The desktop `desktopPlain` with the rectangle `(-1000, 0, 2147483647, 600)`
for every window: `right - left` is `2147484647`, one thousand more than an
`int` holds. -/
def desktopWideRect : Desktop :=
  { desktopPlain with
    GetWindowRect := fun _ =>
      some { left := -1000, top := 0, right := 2147483647, bottom := 600 } }

/-- The desktop `desktopPlain` with every window minimised: the rectangle is
at `(-32000, -32000)`. -/
def desktopMinimised : Desktop :=
  { desktopPlain with
    GetWindowRect := fun _ =>
      some { left := -32000, top := -32000, right := -31840, bottom := -31972 } }

/-! ## Persistence: vocabulary -/

/-- The characters `SaveWindowOrder` writes after the count line: the lines of
the entries one after the other. -/
def saveBody (rt : CRuntime) : List WindowInfo → List Nat
  | [] => []
  | w :: ws => saveLine rt w ++ saveBody rt ws

/-- The entry `LoadWindowOrder` builds for the saved entry `w`: same handle and
title, the class name read again from the window. -/
def reloaded (d : Desktop) (w : WindowInfo) : WindowInfo :=
  { w with className := d.GetClassNameW w.hwnd }

/-- The C runtime writes the entry `w` on one line of the file and reads it back:
the pointer text holds no terminator, no `|` and no white space; the title
text holds no terminator and no newline; the line fits the 512-character
buffer of `LoadWindowOrder`; `%p` read back gives the handle, and the title
text with its newline converts back to the title, whatever the array `title`
held before. -/
def Persistable (rt : CRuntime) (w : WindowInfo) : Prop :=
  (∀ c ∈ rt.fmt_p w.hwnd, c ≠ 0 ∧ c ≠ 124 ∧ isspace c = false)
  ∧ (∀ c ∈ rt.fmt_ls w.title, c ≠ 0 ∧ c ≠ 10)
  ∧ (rt.fmt_p w.hwnd).length + (rt.fmt_ls w.title).length + 2 ≤ 511
  ∧ rt.scan_p (rt.fmt_p w.hwnd) = some w.hwnd
  ∧ ∀ old, stripNewline (rt.MultiByteToWideChar (rt.fmt_ls w.title ++ [10]) old) = w.title

/-! ## Persisted files: vocabulary -/

/-- An entry line of the file, given by its pointer text and its title text. -/
abbrev EntryText := List Nat × List Nat

/-- The line of the file for an entry: pointer text, `|`, title text, newline. -/
def entryLine (e : EntryText) : List Nat := e.1 ++ [124] ++ e.2 ++ [10]

/-- The lines of the entries one after the other. -/
def entriesBody : List EntryText → List Nat
  | [] => []
  | e :: es => entryLine e ++ entriesBody es

/-- The text of the file that holds the entries `es` in the format of section
"Persisted order file": the count on the first line, then one line per entry. -/
def fileText (es : List EntryText) : List Nat :=
  fmt_d (es.length : Int) ++ [10] ++ entriesBody es

/-- The entry line is well formed: the pointer text holds no terminator, no `|`
and no white space, the title text holds no terminator and no newline, and the
line fits the 512-character buffer of `LoadWindowOrder`. -/
def WellFormedEntry (e : EntryText) : Prop :=
  (∀ c ∈ e.1, c ≠ 0 ∧ c ≠ 124 ∧ isspace c = false)
  ∧ (∀ c ∈ e.2, c ≠ 0 ∧ c ≠ 10)
  ∧ e.1.length + e.2.length + 2 ≤ 511

instance (e : EntryText) : Decidable (WellFormedEntry e) := by
  unfold WellFormedEntry; infer_instance

/-- An entry of the file: the text of its line, and the handle and the title
the line stands for. -/
structure FileEntry where
  text : EntryText
  hwnd : HWND
  title : WString
deriving DecidableEq, Repr

/-- The entry is well formed for the C runtime: its line is well formed,
`sscanf` with `%p` reads the handle of the entry from the pointer text, and
`MultiByteToWideChar` turns the title text followed by the newline of the line
into the title of the entry followed by a newline, whatever the array `title`
held before. -/
def WellFormedFileEntry (rt : CRuntime) (e : FileEntry) : Prop :=
  WellFormedEntry e.text
  ∧ rt.scan_p e.text.1 = some e.hwnd
  ∧ ∀ old, rt.MultiByteToWideChar (e.text.2 ++ [10]) old = e.title ++ [10]

/-- The text of the file that holds the entries `es`. -/
def entriesText (es : List FileEntry) : List Nat := fileText (es.map (fun e => e.text))

/-- The entry is still valid: its handle passes `IsWindow` and `IsValidWindow`. -/
def entryStillValid (d : Desktop) (g_mainHwnd : HWND) (e : FileEntry) : Bool :=
  d.IsWindow e.hwnd && IsValidWindow d g_mainHwnd e.hwnd

/-- The entry of the list for a file entry: its handle, its title, and the
class name of the window that has the handle. -/
def entryLoaded (d : Desktop) (e : FileEntry) : WindowInfo :=
  { hwnd := e.hwnd, title := e.title, className := d.GetClassNameW e.hwnd }

/-- The desktop `desktopPlain` after the window `102` has been destroyed. -/
def desktopStale102 : Desktop :=
  { desktopPlain with
    toOS := { osAllLive with IsWindow := fun h => h != 102 } }

/-- Three entries, of lines `101|A`, `102|B`, `103|C`. -/
def threeEntries : List FileEntry :=
  [{ text := ([49, 48, 49], [65]), hwnd := 101, title := [65] },
   { text := ([49, 48, 50], [66]), hwnd := 102, title := [66] },
   { text := ([49, 48, 51], [67]), hwnd := 103, title := [67] }]

/-! ## Lemmas on the two loops of `UpdateWindowList` -/

theorem any_hwnd_iff (l : List WindowInfo) (h : HWND) :
    l.any (fun t => t.hwnd == h) = true ↔ h ∈ handles l := by
  induction l with
  | nil => simp [handles]
  | cons t ts ih =>
    rw [List.any_cons, Bool.or_eq_true, ih]
    simp only [handles, List.map_cons, List.mem_cons, beq_iff_eq]
    constructor
    · rintro (h1 | h1)
      · exact Or.inl h1.symm
      · exact Or.inr h1
    · rintro (h1 | h1)
      · exact Or.inl h1.symm
      · exact Or.inr h1

theorem stillExists_iff (T : List WindowInfo) (h : HWND) :
    stillExists T h = true ↔ h ∈ handles T := any_hwnd_iff T h

theorem alreadyInList_iff (N : List WindowInfo) (h : HWND) :
    alreadyInList N h = true ↔ h ∈ handles N := any_hwnd_iff N h

theorem handles_append (l₁ l₂ : List WindowInfo) :
    handles (l₁ ++ l₂) = handles l₁ ++ handles l₂ := by
  simp [handles]

theorem carryOver_foldl (os : OS) (T : List WindowInfo) (old acc : List WindowInfo) :
    old.foldl (carryOverStep os T) acc
      = acc ++ (old.filter (fun w => stillExists T w.hwnd && os.IsWindow w.hwnd)).map
          (fun w => { w with title := os.GetWindowTextW w.hwnd }) := by
  induction old generalizing acc with
  | nil => simp
  | cons w ws ih =>
    rw [List.foldl_cons, ih]
    cases hk : (stillExists T w.hwnd && os.IsWindow w.hwnd)
    · rw [List.filter_cons_of_neg (by simp [hk])]
      unfold carryOverStep
      rw [hk]
      rfl
    · rw [List.filter_cons_of_pos (by simp [hk])]
      unfold carryOverStep
      rw [hk, List.map_cons, if_pos rfl, List.append_assoc]
      rfl

theorem carryOver_eq (os : OS) (T old : List WindowInfo) :
    carryOver os T old
      = (old.filter (fun w => stillExists T w.hwnd && os.IsWindow w.hwnd)).map
          (fun w => { w with title := os.GetWindowTextW w.hwnd }) := by
  simp [carryOver, carryOver_foldl]

theorem handles_carryOver (os : OS) (T old : List WindowInfo) :
    handles (carryOver os T old)
      = (handles old).filter (fun h => stillExists T h && os.IsWindow h) := by
  rw [carryOver_eq]
  simp only [handles, List.map_map, List.filter_map]
  rfl

theorem mem_handles_carryOver (os : OS) (T old : List WindowInfo) (h : HWND) :
    h ∈ handles (carryOver os T old)
      ↔ h ∈ handles old ∧ h ∈ handles T ∧ os.IsWindow h = true := by
  rw [handles_carryOver, List.mem_filter, Bool.and_eq_true, stillExists_iff]

theorem newTail_cons_of_mem (N ts : List WindowInfo) (t : WindowInfo)
    (hk : alreadyInList N t.hwnd = true) : newTail N (t :: ts) = newTail N ts := by
  rw [newTail, if_pos hk]

theorem newTail_cons_of_not_mem (N ts : List WindowInfo) (t : WindowInfo)
    (hk : alreadyInList N t.hwnd = false) :
    newTail N (t :: ts) = t :: newTail (N ++ [t]) ts := by
  rw [newTail, hk]
  rfl

theorem appendNew_eq (N T : List WindowInfo) : appendNew N T = N ++ newTail N T := by
  induction T generalizing N with
  | nil => simp [appendNew, newTail]
  | cons t ts ih =>
    have ih' : ∀ M, List.foldl appendNewStep M ts = M ++ newTail M ts := fun M => ih M
    unfold appendNew
    rw [List.foldl_cons, ih']
    cases hk : alreadyInList N t.hwnd
    · rw [newTail_cons_of_not_mem N ts t hk]
      unfold appendNewStep
      rw [hk]
      simp
    · rw [newTail_cons_of_mem N ts t hk]
      unfold appendNewStep
      rw [hk]
      simp

theorem newTail_sublist (N T : List WindowInfo) : List.Sublist (newTail N T) T := by
  induction T generalizing N with
  | nil => simp [newTail]
  | cons t ts ih =>
    cases hk : alreadyInList N t.hwnd
    · rw [newTail_cons_of_not_mem N ts t hk]
      exact List.Sublist.cons₂ _ (ih _)
    · rw [newTail_cons_of_mem N ts t hk]
      exact List.Sublist.cons _ (ih N)

theorem handles_cons (t : WindowInfo) (ts : List WindowInfo) :
    handles (t :: ts) = t.hwnd :: handles ts := rfl

theorem not_mem_of_alreadyInList_false (N : List WindowInfo) (h : HWND)
    (hk : alreadyInList N h = false) : h ∉ handles N := by
  intro hN
  rw [(alreadyInList_iff N h).2 hN] at hk
  exact Bool.noConfusion hk

theorem mem_newTail (N T : List WindowInfo) (h : HWND) :
    h ∈ handles (newTail N T) ↔ h ∈ handles T ∧ h ∉ handles N := by
  induction T generalizing N with
  | nil => simp [newTail, handles]
  | cons t ts ih =>
    cases hk : alreadyInList N t.hwnd
    · have hk' : t.hwnd ∉ handles N := not_mem_of_alreadyInList_false N t.hwnd hk
      rw [newTail_cons_of_not_mem N ts t hk, handles_cons, handles_cons, List.mem_cons,
        List.mem_cons, ih (N ++ [t]), handles_append, handles_cons, List.mem_append]
      have e3 : handles ([] : List WindowInfo) = [] := rfl
      rw [e3, List.mem_singleton]
      constructor
      · rintro (h1 | ⟨h1, h2⟩)
        · subst h1; exact ⟨Or.inl rfl, hk'⟩
        · exact ⟨Or.inr h1, fun hN => h2 (Or.inl hN)⟩
      · rintro ⟨h1 | h1, h2⟩
        · exact Or.inl h1
        · by_cases hh : h = t.hwnd
          · exact Or.inl hh
          · exact Or.inr ⟨h1, fun hN => hN.elim h2 hh⟩
    · have hk' : t.hwnd ∈ handles N := (alreadyInList_iff N t.hwnd).1 hk
      rw [newTail_cons_of_mem N ts t hk, ih N, handles_cons, List.mem_cons]
      constructor
      · rintro ⟨h1, h2⟩; exact ⟨Or.inr h1, h2⟩
      · rintro ⟨h1 | h1, h2⟩
        · subst h1; exact absurd hk' h2
        · exact ⟨h1, h2⟩

theorem newTail_not_mem (N T : List WindowInfo) (h : HWND)
    (hm : h ∈ handles (newTail N T)) : h ∉ handles N :=
  ((mem_newTail N T h).1 hm).2

theorem newTail_nodup (N T : List WindowInfo) : (handles (newTail N T)).Nodup := by
  induction T generalizing N with
  | nil => simp [newTail, handles]
  | cons t ts ih =>
    cases hk : alreadyInList N t.hwnd
    · rw [newTail_cons_of_not_mem N ts t hk, handles_cons, List.nodup_cons]
      refine ⟨?_, ih _⟩
      intro hm
      exact newTail_not_mem (N ++ [t]) ts t.hwnd hm (by simp [handles])
    · rw [newTail_cons_of_mem N ts t hk]
      exact ih N

theorem mem_handles_appendNew (N T : List WindowInfo) (h : HWND) :
    h ∈ handles (appendNew N T) ↔ h ∈ handles N ∨ h ∈ handles T := by
  rw [appendNew_eq, handles_append, List.mem_append, mem_newTail]
  constructor
  · rintro (h1 | ⟨h1, _⟩)
    · exact Or.inl h1
    · exact Or.inr h1
  · rintro (h1 | h1)
    · exact Or.inl h1
    · by_cases hN : h ∈ handles N
      · exact Or.inl hN
      · exact Or.inr ⟨h1, hN⟩

theorem UpdateWindowList_firstRun (os : OS) (T : List WindowInfo) (st : State)
    (hf : firstRun st = true) :
    UpdateWindowList os T st = { st with g_windows := T, g_orderInitialized := true } := by
  unfold firstRun at hf
  simp [UpdateWindowList, hf]

theorem UpdateWindowList_merge (os : OS) (T : List WindowInfo) (st : State)
    (hf : firstRun st = false) :
    (UpdateWindowList os T st).g_windows
      = carryOver os T st.g_windows ++ newTail (carryOver os T st.g_windows) T := by
  unfold firstRun at hf
  simp [UpdateWindowList, hf, appendNew_eq]


theorem firstRun_false_of_mem (st : State) (hst : OrderConsistent st) (h : HWND)
    (hm : h ∈ handles st.g_windows) : firstRun st = false := by
  unfold firstRun
  cases hi : st.g_orderInitialized
  · rw [hst hi] at hm
    simp [handles] at hm
  · cases hl : st.g_windows with
    | nil => rw [hl] at hm; simp [handles] at hm
    | cons w ws => rfl

theorem windows_nil_of_firstRun (st : State) (hst : OrderConsistent st)
    (hf : firstRun st = true) : st.g_windows = [] := by
  unfold firstRun at hf
  cases hi : st.g_orderInitialized
  · exact hst hi
  · rw [hi] at hf
    simpa using hf

theorem OrderConsistent_UpdateWindowList (os : OS) (S : List WindowInfo) (st : State) :
    OrderConsistent (UpdateWindowList os S st) := by
  intro h
  cases hf : firstRun st
  · unfold firstRun at hf
    simp only [UpdateWindowList, hf] at h
    have hi : st.g_orderInitialized = true := by
      cases hi : st.g_orderInitialized
      · rw [hi] at hf; simp at hf
      · rfl
    simp [hi] at h
  · rw [UpdateWindowList_firstRun os S st hf] at h
    simp at h

theorem handles_UpdateWindowList_merge (os : OS) (S : List WindowInfo) (st : State)
    (hf : firstRun st = false) :
    handles (UpdateWindowList os S st).g_windows
      = (handles st.g_windows).filter (fun h => stillExists S h && os.IsWindow h)
        ++ handles (newTail (carryOver os S st.g_windows) S) := by
  rw [UpdateWindowList_merge os S st hf, handles_append, handles_carryOver]

theorem eq_of_sublist_of_subset_nodup {l₁ l₂ : List HWND} (hs : List.Sublist l₁ l₂)
    (hsub : l₂ ⊆ l₁) (hnd : l₂.Nodup) : l₁ = l₂ :=
  hs.eq_of_length_le (hnd.subperm hsub).length_le

theorem filter_new_carried_nil (L : List HWND) (p : HWND → Bool) :
    (L.filter p).filter (fun h => decide (h ∉ L)) = [] := by
  rw [List.filter_eq_nil_iff]
  intro h hm
  have : h ∈ L := (List.mem_filter.1 hm).1
  simp [this]

/-! ## Reconciliation: order, completeness, duplicates, stale handles -/

/-- C1, as the claim states it, fails: with the initialized list
`[101, 102]`, the snapshot `[101, 102]` and the handle `101` failing
`IsWindow`, the handle `101` precedes `102` in the old list and both are in
the snapshot, yet `101` does not precede `102` in the result (it is `[102, 101]`). -/
theorem UpdateWindowList_order_counterexample :
    Precedes 101 102 (handles (hiddenWith [winA, winB]).g_windows)
      ∧ 101 ∈ handles [winA, winB] ∧ 102 ∈ handles [winA, winB]
      ∧ handles (UpdateWindowList osStale101 [winA, winB] (hiddenWith [winA, winB])).g_windows
          = [102, 101]
      ∧ ¬ Precedes 101 102
          (handles (UpdateWindowList osStale101 [winA, winB] (hiddenWith [winA, winB])).g_windows) := by
  decide

/-- C1 (amended): for every state whose flag and list are consistent and every
snapshot `S`, whenever the handles `a` and `b` both occur in `S`, both pass
the liveness check `IsWindow`, and `a` precedes `b` in the previous list, then
`a` precedes `b` in the list `UpdateWindowList` leaves. -/
theorem UpdateWindowList_preserves_order (os : OS) (S : List WindowInfo) (st : State)
    (a b : HWND) (hst : OrderConsistent st)
    (ha : a ∈ handles S) (hb : b ∈ handles S)
    (hla : os.IsWindow a = true) (hlb : os.IsWindow b = true)
    (hab : Precedes a b (handles st.g_windows)) :
    Precedes a b (handles (UpdateWindowList os S st).g_windows) := by
  unfold Precedes at hab ⊢
  have haL : a ∈ handles st.g_windows := hab.subset (by simp)
  have hf := firstRun_false_of_mem st hst a haL
  rw [handles_UpdateWindowList_merge os S st hf]
  have hpa : (stillExists S a && os.IsWindow a) = true := by
    rw [Bool.and_eq_true]; exact ⟨(stillExists_iff S a).2 ha, hla⟩
  have hpb : (stillExists S b && os.IsWindow b) = true := by
    rw [Bool.and_eq_true]; exact ⟨(stillExists_iff S b).2 hb, hlb⟩
  have hfil := hab.filter (fun h => stillExists S h && os.IsWindow h)
  have e : List.filter (fun h => stillExists S h && os.IsWindow h) [a, b] = [a, b] := by
    simp [List.filter_cons, hpa, hpb]
  rw [e] at hfil
  exact hfil.trans (List.sublist_append_left _ _)

/-- C1 (amended), at a concrete input: the initialized list `[101, 102, 103]`
against the snapshot `[103, 101, 104]` with every handle live keeps `101`
before `103`. -/
theorem UpdateWindowList_preserves_order_witness :
    Precedes 101 103
      (handles (UpdateWindowList osAllLive [winC, winA, winD]
        (hiddenWith [winA, winB, winC])).g_windows) :=
  UpdateWindowList_preserves_order osAllLive [winC, winA, winD] (hiddenWith [winA, winB, winC])
    101 103 (by decide) (by decide) (by decide) rfl rfl (by decide)

/-- C2: for every previous list `L`, every snapshot `S`, and `R` the list
`UpdateWindowList` leaves: every handle of `S` that is not in `L` is in `R`;
the handles of `R` that are not in `L`, read in the order of `R`, form a
subsequence of those of `S`, and are exactly those of `S` in the order of `S`
when `S` repeats no handle; and every position of `R` holding such a new
handle lies after every position holding a handle carried over from `L`. -/
theorem UpdateWindowList_appends_new (os : OS) (S : List WindowInfo) (st : State) :
    (∀ n, NewHandle S st n → n ∈ handles (UpdateWindowList os S st).g_windows)
    ∧ List.Sublist
        ((handles (UpdateWindowList os S st).g_windows).filter
          (fun h => decide (h ∉ handles st.g_windows)))
        ((handles S).filter (fun h => decide (h ∉ handles st.g_windows)))
    ∧ ((handles S).Nodup →
        (handles (UpdateWindowList os S st).g_windows).filter
          (fun h => decide (h ∉ handles st.g_windows))
        = (handles S).filter (fun h => decide (h ∉ handles st.g_windows)))
    ∧ (∀ (i j : Nat) (n c : HWND),
        (handles (UpdateWindowList os S st).g_windows)[i]? = some n →
        (handles (UpdateWindowList os S st).g_windows)[j]? = some c →
        NewHandle S st n → CarriedOver os S st c → j < i) := by
  cases hf : firstRun st
  · -- the merging branch
    have hR := handles_UpdateWindowList_merge os S st hf
    have hK := handles_carryOver os S st.g_windows
    have hnew : ∀ h, h ∈ handles S → h ∉ handles st.g_windows →
        h ∈ handles (newTail (carryOver os S st.g_windows) S) := by
      intro h hS hL
      rw [mem_newTail]
      refine ⟨hS, ?_⟩
      intro hc
      exact hL ((mem_handles_carryOver os S st.g_windows h).1 hc).1
    have hsub : List.Sublist
        ((handles (UpdateWindowList os S st).g_windows).filter
          (fun h => decide (h ∉ handles st.g_windows)))
        ((handles S).filter (fun h => decide (h ∉ handles st.g_windows))) := by
      rw [hR, List.filter_append, filter_new_carried_nil, List.nil_append]
      exact ((newTail_sublist _ S).map _).filter _
    refine ⟨?_, hsub, ?_, ?_⟩
    · intro h hn
      rw [hR]
      exact List.mem_append_right _ (hnew h hn.1 hn.2)
    · intro hnd
      apply eq_of_sublist_of_subset_nodup hsub _ (hnd.filter _)
      intro h hm
      rw [List.mem_filter] at hm
      have hL : h ∉ handles st.g_windows := by simpa using hm.2
      rw [List.mem_filter]
      refine ⟨?_, hm.2⟩
      rw [hR]
      exact List.mem_append_right _ (hnew h hm.1 hL)
    · intro i j n c hi hj hn hc
      rw [hR] at hi hj
      have hcK : c ∈ (handles st.g_windows).filter (fun h => stillExists S h && os.IsWindow h) := by
        rw [← hK]
        exact (mem_handles_carryOver os S st.g_windows c).2 hc.2
      have hnK : n ∉ (handles st.g_windows).filter (fun h => stillExists S h && os.IsWindow h) :=
        fun hm => hn.2 (List.mem_filter.1 hm).1
      have hj' : j < ((handles st.g_windows).filter
          (fun h => stillExists S h && os.IsWindow h)).length := by
        by_contra hge
        rw [List.getElem?_append_right (Nat.le_of_not_lt hge)] at hj
        have hcT := List.getElem?_mem hj
        have := newTail_not_mem _ S c hcT
        rw [hK] at this
        exact this hcK
      have hi' : ((handles st.g_windows).filter
          (fun h => stillExists S h && os.IsWindow h)).length ≤ i := by
        by_contra hlt
        rw [List.getElem?_append_left (Nat.lt_of_not_le hlt)] at hi
        exact hnK (List.getElem?_mem hi)
      exact Nat.lt_of_lt_of_le hj' hi'
  · -- the first-run branch: the list becomes the snapshot, nothing is carried over
    have hR : handles (UpdateWindowList os S st).g_windows = handles S := by
      rw [UpdateWindowList_firstRun os S st hf]
    rw [hR]
    refine ⟨fun h hn => hn.1, List.Sublist.refl _, fun _ => rfl, ?_⟩
    intro i j n c _ _ _ hc
    rw [hc.1] at hf
    exact Bool.noConfusion hf

/-- C2, at a concrete input: the list `[101, 102]` against the snapshot
`[104, 102, 103]`, every handle live, becomes `[102, 104, 103]`; the new
handles `104` and `103` are in it, in the order of the snapshot. -/
theorem UpdateWindowList_appends_new_witness :
    handles (UpdateWindowList osAllLive [winD, winB, winC] (hiddenWith [winA, winB])).g_windows
        = [102, 104, 103]
    ∧ NewHandle [winD, winB, winC] (hiddenWith [winA, winB]) 104
    ∧ 104 ∈ handles (UpdateWindowList osAllLive [winD, winB, winC]
        (hiddenWith [winA, winB])).g_windows
    ∧ (handles (UpdateWindowList osAllLive [winD, winB, winC]
          (hiddenWith [winA, winB])).g_windows).filter
          (fun h => decide (h ∉ handles (hiddenWith [winA, winB]).g_windows))
        = (handles [winD, winB, winC]).filter
          (fun h => decide (h ∉ handles (hiddenWith [winA, winB]).g_windows)) :=
  ⟨by decide, ⟨by decide, by decide⟩,
   (UpdateWindowList_appends_new osAllLive [winD, winB, winC] (hiddenWith [winA, winB])).1
      104 ⟨by decide, by decide⟩,
   (UpdateWindowList_appends_new osAllLive [winD, winB, winC] (hiddenWith [winA, winB])).2.2.1
      (by decide)⟩

/-- C3, as the claim states it, fails: an initialized list that holds the
handle `101` twice keeps both entries when `101` is in the snapshot and live;
and on the first run a snapshot that lists `101` twice becomes the list as it
is. -/
theorem UpdateWindowList_nodup_counterexample :
    handles (UpdateWindowList osAllLive [winA] (hiddenWith [winA, winA])).g_windows = [101, 101]
    ∧ ¬ (handles (UpdateWindowList osAllLive [winA] (hiddenWith [winA, winA])).g_windows).Nodup
    ∧ handles (UpdateWindowList osAllLive [winA, winA] initialState).g_windows = [101, 101]
    ∧ ¬ (handles (UpdateWindowList osAllLive [winA, winA] initialState).g_windows).Nodup := by
  decide

/-- C3 (amended): when the previous list repeats no handle and, in the case
that the previous list is uninitialized or empty, the snapshot repeats none
either, the list `UpdateWindowList` leaves repeats no handle. -/
theorem UpdateWindowList_nodup (os : OS) (S : List WindowInfo) (st : State)
    (hL : (handles st.g_windows).Nodup)
    (hS : firstRun st = true → (handles S).Nodup) :
    (handles (UpdateWindowList os S st).g_windows).Nodup := by
  cases hf : firstRun st
  · rw [handles_UpdateWindowList_merge os S st hf, List.nodup_append]
    refine ⟨hL.filter _, newTail_nodup _ S, ?_⟩
    intro h hK hT
    have := newTail_not_mem _ S h hT
    rw [handles_carryOver] at this
    exact this hK
  · rw [UpdateWindowList_firstRun os S st hf]
    exact hS hf

/-- C3 (amended), at a concrete input: `[101, 102]` against the snapshot
`[102, 103, 103]`. -/
theorem UpdateWindowList_nodup_witness :
    (handles (UpdateWindowList osAllLive [winB, winC, winC]
      (hiddenWith [winA, winB])).g_windows).Nodup :=
  UpdateWindowList_nodup osAllLive [winB, winC, winC] (hiddenWith [winA, winB])
    (by decide) (by decide)

/-- C4, the code at the failing input: the initialized list `[101]`, the
snapshot `[101]` and the handle `101` failing `IsWindow`. The first loop drops
the entry and the second loop appends it again from the snapshot, so the stale
handle is still in the list. -/
theorem UpdateWindowList_stale_handle_kept :
    osStale101.IsWindow 101 = false
    ∧ (hiddenWith [winA]).g_orderInitialized = true
    ∧ 101 ∈ handles (hiddenWith [winA]).g_windows
    ∧ carryOver osStale101 [winA] (hiddenWith [winA]).g_windows = []
    ∧ handles (UpdateWindowList osStale101 [winA] (hiddenWith [winA])).g_windows = [101] := by
  decide

/-- C5: for every previous list and every snapshot `S` (in particular every
`S` whose handles all pass the liveness check), the handles of the list
`UpdateWindowList` leaves are exactly the handles of `S`: a handle of the
previous list that is not in `S` is gone and every handle of `S` is there. -/
theorem UpdateWindowList_handles_eq_snapshot (os : OS) (S : List WindowInfo) (st : State)
    (h : HWND) :
    h ∈ handles (UpdateWindowList os S st).g_windows ↔ h ∈ handles S := by
  cases hf : firstRun st
  · rw [UpdateWindowList_merge os S st hf, ← appendNew_eq, mem_handles_appendNew,
      mem_handles_carryOver]
    constructor
    · rintro (⟨_, hS, _⟩ | hS) <;> exact hS
    · exact fun hS => Or.inr hS
  · rw [UpdateWindowList_firstRun os S st hf]

/-- C6: when the previous list is uninitialized (`g_orderInitialized` false)
or empty, `UpdateWindowList` leaves exactly the snapshot, entry for entry, sets
`g_orderInitialized` and changes no other global. -/
theorem UpdateWindowList_first_run (os : OS) (S : List WindowInfo) (st : State)
    (h : st.g_orderInitialized = false ∨ st.g_windows = []) :
    (UpdateWindowList os S st).g_windows = S
    ∧ (UpdateWindowList os S st).g_orderInitialized = true
    ∧ UpdateWindowList os S st = { st with g_windows := S, g_orderInitialized := true } := by
  have hf : firstRun st = true := by
    unfold firstRun
    rcases h with h | h
    · rw [h]; rfl
    · rw [h]; simp
  rw [UpdateWindowList_firstRun os S st hf]
  exact ⟨rfl, rfl, rfl⟩

/-- C6, at a concrete input: the first pass after program start. -/
theorem UpdateWindowList_first_run_witness :
    (UpdateWindowList osAllLive [winB, winA] initialState).g_windows = [winB, winA]
    ∧ (UpdateWindowList osAllLive [winB, winA] initialState).g_orderInitialized = true :=
  ⟨(UpdateWindowList_first_run osAllLive [winB, winA] initialState (Or.inl rfl)).1,
   (UpdateWindowList_first_run osAllLive [winB, winA] initialState (Or.inl rfl)).2.1⟩

/-- C7: for every state whose flag and list are consistent and every snapshot
`S`, the list `UpdateWindowList` leaves is at most as long as the previous
list plus the number of entries of `S` whose handle is not in the previous
list. -/
theorem UpdateWindowList_length_le (os : OS) (S : List WindowInfo) (st : State)
    (hst : OrderConsistent st) :
    (UpdateWindowList os S st).g_windows.length
      ≤ st.g_windows.length
        + S.countP (fun t => decide (t.hwnd ∉ handles st.g_windows)) := by
  have hlen : ∀ l : List WindowInfo, l.length = (handles l).length := by
    intro l; simp [handles]
  have hcnt : S.countP (fun t => decide (t.hwnd ∉ handles st.g_windows))
      = (handles S).countP (fun h => decide (h ∉ handles st.g_windows)) := by
    unfold handles
    rw [List.countP_map]
    rfl
  cases hf : firstRun st
  · rw [hlen, handles_UpdateWindowList_merge os S st hf, List.length_append, hcnt,
      hlen st.g_windows]
    -- the appended part, split by membership in the old list
    have hsplit := List.length_eq_length_filter_add
      (l := handles (newTail (carryOver os S st.g_windows) S))
      (fun h => decide (h ∈ handles st.g_windows))
    -- appended entries whose handle is new
    have hnewle : ((handles (newTail (carryOver os S st.g_windows) S)).filter
          (fun h => !decide (h ∈ handles st.g_windows))).length
        ≤ (handles S).countP (fun h => decide (h ∉ handles st.g_windows)) := by
      rw [List.countP_eq_length_filter]
      have e : (fun h => decide (h ∉ handles st.g_windows))
          = (fun h => !decide (h ∈ handles st.g_windows)) := by
        funext h; simp
      rw [e]
      exact (((newTail_sublist _ S).map _).filter _).length_le
    -- appended entries whose handle was in the old list: the dropped ones
    have holdle : ((handles (newTail (carryOver os S st.g_windows) S)).filter
          (fun h => decide (h ∈ handles st.g_windows))).length
        ≤ ((handles st.g_windows).filter
            (fun h => !(stillExists S h && os.IsWindow h))).length := by
      apply List.Subperm.length_le
      apply List.Nodup.subperm ((newTail_nodup _ S).filter _)
      intro h hm
      rw [List.mem_filter] at hm
      have hL : h ∈ handles st.g_windows := by simpa using hm.2
      have hK := newTail_not_mem _ S h hm.1
      rw [handles_carryOver, List.mem_filter] at hK
      rw [List.mem_filter]
      refine ⟨hL, ?_⟩
      cases hp : (stillExists S h && os.IsWindow h)
      · rfl
      · exact absurd ⟨hL, hp⟩ hK
    have hLsplit := List.length_eq_length_filter_add (l := handles st.g_windows)
      (fun h => stillExists S h && os.IsWindow h)
    omega
  · rw [UpdateWindowList_firstRun os S st hf, windows_nil_of_firstRun st hst hf]
    have : S.countP (fun t => decide (t.hwnd ∉ handles ([] : List WindowInfo))) = S.length := by
      rw [List.countP_eq_length]
      intro t _
      simp [handles]
    simp only [List.length_nil, Nat.zero_add]
    exact Nat.le_of_eq this.symm

/-- C7, at a concrete input: `[101, 102]` against the snapshot `[104, 102, 103]`
gives three entries, at most `2 + 2`. -/
theorem UpdateWindowList_length_le_witness :
    (UpdateWindowList osAllLive [winD, winB, winC] (hiddenWith [winA, winB])).g_windows.length
      ≤ (hiddenWith [winA, winB]).g_windows.length
        + [winD, winB, winC].countP
            (fun t => decide (t.hwnd ∉ handles (hiddenWith [winA, winB]).g_windows)) :=
  UpdateWindowList_length_le osAllLive [winD, winB, winC] (hiddenWith [winA, winB]) (by decide)

/-! ## `SwapWindows` -/

theorem SwapWindows_of_not_inRange (i j : Int) (st : State) (h : ¬ SwapInRange i j st) :
    SwapWindows i j st = st := by
  unfold SwapWindows
  split
  · rfl
  · rename_i hg
    exfalso
    apply h
    simp only [Bool.or_eq_true, decide_eq_true_eq, not_or, not_lt, ge_iff_le, not_le] at hg
    obtain ⟨⟨⟨⟨⟨_, h1⟩, h2⟩, h3⟩, h4⟩, h5⟩ := hg
    exact ⟨h1, h3, h2, h4, h5⟩

theorem SwapWindows_of_inRange (i j : Int) (st : State) (h : SwapInRange i j st) :
    ∃ a b, st.g_windows[i.toNat]? = some a ∧ st.g_windows[j.toNat]? = some b
      ∧ SwapWindows i j st
          = { st with g_windows := (st.g_windows.set i.toNat b).set j.toNat a } := by
  obtain ⟨h1, h2, h3, h4, h5⟩ := h
  unfold State.g_windowCount at h2 h4
  have hi : i.toNat < st.g_windows.length := by omega
  have hj : j.toNat < st.g_windows.length := by omega
  refine ⟨st.g_windows[i.toNat], st.g_windows[j.toNat], List.getElem?_eq_getElem hi,
    List.getElem?_eq_getElem hj, ?_⟩
  have hne : st.g_windows.isEmpty = false := by
    cases hl : st.g_windows with
    | nil => rw [hl] at hi; simp at hi
    | cons w ws => rfl
  have hg : (st.g_windows.isEmpty || decide (i < 0) || decide (j < 0)
      || decide (i ≥ st.g_windowCount) || decide (j ≥ st.g_windowCount)
      || decide (i = j)) = false := by
    unfold State.g_windowCount
    simp only [hne, Bool.false_or, Bool.or_eq_false_iff, decide_eq_false_iff_not, not_lt,
      ge_iff_le, not_le]
    exact ⟨⟨⟨⟨h1, h3⟩, h2⟩, h4⟩, h5⟩
  unfold SwapWindows
  rw [hg, List.getElem?_eq_getElem hi, List.getElem?_eq_getElem hj]
  rfl

theorem getElem?_swapped (l : List WindowInfo) (i j k : Nat) (a b : WindowInfo)
    (hi : l[i]? = some a) (hj : l[j]? = some b) (hij : i ≠ j) :
    ((l.set i b).set j a)[k]?
      = if k = j then some a else if k = i then some b else l[k]? := by
  have hil : i < l.length := (List.getElem?_eq_some.1 hi).1
  have hjl : j < l.length := (List.getElem?_eq_some.1 hj).1
  by_cases hkj : k = j
  · subst hkj
    rw [if_pos rfl, List.getElem?_set_self (by simpa using hjl)]
  · rw [if_neg hkj, List.getElem?_set_ne (fun e => hkj e.symm)]
    by_cases hki : k = i
    · subst hki
      rw [if_pos rfl, List.getElem?_set_self hil]
    · rw [if_neg hki, List.getElem?_set_ne (fun e => hki e.symm)]

/-- C8: `SwapWindows(i, j)` on a list of `n` entries. When `0 ≤ i < n`,
`0 ≤ j < n` and `i ≠ j`, row `i` of the result is the old row `j`, row `j` is
the old row `i`, and every other row is unchanged. When an index is out of
range or `i = j`, the whole state is unchanged. In every case the length of
the list, `g_selectedIndex` and the other globals are unchanged. -/
theorem SwapWindows_spec (i j : Int) (st : State) :
    (SwapInRange i j st →
        (SwapWindows i j st).g_windows[i.toNat]? = st.g_windows[j.toNat]?
        ∧ (SwapWindows i j st).g_windows[j.toNat]? = st.g_windows[i.toNat]?
        ∧ ∀ k : Nat, k ≠ i.toNat → k ≠ j.toNat →
            (SwapWindows i j st).g_windows[k]? = st.g_windows[k]?)
    ∧ (¬ SwapInRange i j st → SwapWindows i j st = st)
    ∧ (SwapWindows i j st).g_windows.length = st.g_windows.length
    ∧ (SwapWindows i j st).g_selectedIndex = st.g_selectedIndex
    ∧ SwapWindows i j st = { st with g_windows := (SwapWindows i j st).g_windows } := by
  by_cases h : SwapInRange i j st
  · obtain ⟨a, b, ha, hb, hs⟩ := SwapWindows_of_inRange i j st h
    have hne : i.toNat ≠ j.toNat := by
      obtain ⟨h1, _, h3, _, h5⟩ := h
      omega
    rw [hs]
    refine ⟨fun _ => ⟨?_, ?_, ?_⟩, fun hn => absurd h hn, ?_, rfl, rfl⟩
    · simp only
      rw [getElem?_swapped _ _ _ _ a b ha hb hne, if_neg hne, if_pos rfl, hb]
    · simp only
      rw [getElem?_swapped _ _ _ _ a b ha hb hne, if_pos rfl, ha]
    · intro k hki hkj
      simp only
      rw [getElem?_swapped _ _ _ _ a b ha hb hne, if_neg hkj, if_neg hki]
    · simp
  · rw [SwapWindows_of_not_inRange i j st h]
    exact ⟨fun hn => absurd hn h, fun _ => rfl, rfl, rfl, rfl⟩

/-- C9: for every list and every pair of indices, in range or not,
`SwapWindows(i, j)` applied twice in succession gives back the state it
started from, hence the original list. -/
theorem SwapWindows_twice (i j : Int) (st : State) :
    SwapWindows i j (SwapWindows i j st) = st
    ∧ (SwapWindows i j (SwapWindows i j st)).g_windows = st.g_windows := by
  have key : SwapWindows i j (SwapWindows i j st) = st := by
    by_cases h : SwapInRange i j st
    · obtain ⟨a, b, ha, hb, hs⟩ := SwapWindows_of_inRange i j st h
      have hne : i.toNat ≠ j.toNat := by
        obtain ⟨h1, _, h3, _, h5⟩ := h
        omega
      have h' : SwapInRange i j (SwapWindows i j st) := by
        rw [hs]
        unfold SwapInRange State.g_windowCount at h ⊢
        simpa using h
      obtain ⟨a', b', ha', hb', hs'⟩ := SwapWindows_of_inRange i j _ h'
      rw [hs] at ha' hb'
      simp only at ha' hb'
      rw [getElem?_swapped _ _ _ _ a b ha hb hne, if_neg hne, if_pos rfl] at ha'
      rw [getElem?_swapped _ _ _ _ a b ha hb hne, if_pos rfl] at hb'
      cases ha'
      cases hb'
      rw [hs', hs]
      have hl : (((st.g_windows.set i.toNat b).set j.toNat a).set i.toNat a).set j.toNat b
          = st.g_windows := by
        apply List.ext_getElem?
        intro k
        rw [getElem?_swapped _ _ _ _ b a _ _ hne]
        · by_cases hkj : k = j.toNat
          · rw [if_pos hkj, hkj, hb]
          · rw [if_neg hkj]
            by_cases hki : k = i.toNat
            · rw [if_pos hki, hki, ha]
            · rw [if_neg hki, getElem?_swapped _ _ _ _ a b ha hb hne, if_neg hkj, if_neg hki]
        · rw [getElem?_swapped _ _ _ _ a b ha hb hne, if_neg hne, if_pos rfl]
        · rw [getElem?_swapped _ _ _ _ a b ha hb hne, if_pos rfl]
      simp only [hl]
    · rw [SwapWindows_of_not_inRange i j st h, SwapWindows_of_not_inRange i j st h]
  exact ⟨key, by rw [key]⟩

/-- C8, at a concrete input: rows `1` and `0` of `[101, 102, 103]` are in
range and differ, and after the swap row `1` holds the old row `0`, row `0`
the old row `1`. -/
theorem SwapWindows_spec_witness :
    SwapInRange 1 0 (shownWith [winA, winB, winC] 1)
    ∧ (SwapWindows 1 0 (shownWith [winA, winB, winC] 1)).g_windows[(1 : Int).toNat]?
        = (shownWith [winA, winB, winC] 1).g_windows[(0 : Int).toNat]?
    ∧ (SwapWindows 1 0 (shownWith [winA, winB, winC] 1)).g_windows[(0 : Int).toNat]?
        = (shownWith [winA, winB, winC] 1).g_windows[(1 : Int).toNat]? :=
  ⟨by decide,
   ((SwapWindows_spec 1 0 (shownWith [winA, winB, winC] 1)).1 (by decide)).1,
   ((SwapWindows_spec 1 0 (shownWith [winA, winB, winC] 1)).1 (by decide)).2.1⟩

/-- Swapping rows `1` and `0` of `[101, 102, 103]` gives `[102, 101, 103]`, and
an index outside the list changes nothing. -/
theorem SwapWindows_example :
    handles (SwapWindows 1 0 (shownWith [winA, winB, winC] 1)).g_windows = [102, 101, 103]
    ∧ SwapWindows 3 0 (shownWith [winA, winB, winC] 1) = shownWith [winA, winB, winC] 1
    ∧ SwapWindows (-1) 0 (shownWith [winA, winB, winC] 1) = shownWith [winA, winB, winC] 1
    ∧ SwapWindows 2 2 (shownWith [winA, winB, winC] 1) = shownWith [winA, winB, winC] 1 := by
  decide

/-! ## The `WM_KEYDOWN` case: moving the cursor -/

theorem OrderConsistent_initialState : OrderConsistent initialState := by
  decide

theorem OrderConsistent_SwapWindows (i j : Int) (st : State) (hst : OrderConsistent st) :
    OrderConsistent (SwapWindows i j st) := by
  by_cases h : SwapInRange i j st
  · obtain ⟨a, b, _, _, hs⟩ := SwapWindows_of_inRange i j st h
    intro hflag
    rw [hs] at hflag
    have hnil := hst hflag
    obtain ⟨h1, h2, _⟩ := h
    unfold State.g_windowCount at h2
    rw [hnil] at h2
    simp only [List.length_nil] at h2
    omega
  · rw [SwapWindows_of_not_inRange i j st h]
    exact hst

theorem OrderConsistent_WM_KEYDOWN (os : OS) (hwnd : HWND) (wParam : Nat) (ctrl : Bool)
    (st : State) (hst : OrderConsistent st) :
    OrderConsistent (WindowProc_WM_KEYDOWN os hwnd wParam ctrl st).1 := by
  have hsw : ∀ i j, OrderConsistent (SwapWindows i j st) :=
    fun i j => OrderConsistent_SwapWindows i j st hst
  unfold WindowProc_WM_KEYDOWN
  simp only
  split_ifs <;> first
    | exact hst
    | exact hsw _ _

theorem WM_KEYDOWN_up_plain (os : OS) (hwnd : HWND) (st : State)
    (hshown : st.g_showingTabs = true) :
    WindowProc_WM_KEYDOWN os hwnd VK_UP false st
      = if st.g_selectedIndex > 0 then
          ({ st with g_selectedIndex := st.g_selectedIndex - 1 }, [Effect.InvalidateRect hwnd])
        else (st, []) := by
  unfold WindowProc_WM_KEYDOWN
  simp [hshown]

theorem WM_KEYDOWN_down_plain (os : OS) (hwnd : HWND) (st : State)
    (hshown : st.g_showingTabs = true) :
    WindowProc_WM_KEYDOWN os hwnd VK_DOWN false st
      = if st.g_selectedIndex < st.g_windowCount - 1 then
          ({ st with g_selectedIndex := st.g_selectedIndex + 1 }, [Effect.InvalidateRect hwnd])
        else (st, []) := by
  unfold WindowProc_WM_KEYDOWN
  have hne : ¬ (VK_DOWN = VK_UP) := by decide
  simp [hshown, hne]

/-- C10: in the shown state with a list of `n > 0` entries, the cursor inside
`[0, n)` and the Ctrl key not held, the Up key sets `g_selectedIndex` to
`g_selectedIndex - 1` clamped into `[0, n)` and the Down key sets it to
`g_selectedIndex + 1` clamped into `[0, n)`; Up on row `0` and Down on row
`n - 1` change nothing at all (no wrap-around, no repaint); and the list is
unchanged by both keys. -/
theorem WM_KEYDOWN_move_selection (os : OS) (hwnd : HWND) (st : State)
    (hshown : st.g_showingTabs = true) (hn : 0 < st.g_windowCount)
    (hsel : 0 ≤ st.g_selectedIndex ∧ st.g_selectedIndex < st.g_windowCount) :
    (WindowProc_WM_KEYDOWN os hwnd VK_UP false st).1.g_selectedIndex
        = clampIndex (st.g_selectedIndex - 1) st.g_windowCount
    ∧ (WindowProc_WM_KEYDOWN os hwnd VK_UP false st).1.g_windows = st.g_windows
    ∧ (st.g_selectedIndex = 0 → WindowProc_WM_KEYDOWN os hwnd VK_UP false st = (st, []))
    ∧ (WindowProc_WM_KEYDOWN os hwnd VK_DOWN false st).1.g_selectedIndex
        = clampIndex (st.g_selectedIndex + 1) st.g_windowCount
    ∧ (WindowProc_WM_KEYDOWN os hwnd VK_DOWN false st).1.g_windows = st.g_windows
    ∧ (st.g_selectedIndex = st.g_windowCount - 1 →
        WindowProc_WM_KEYDOWN os hwnd VK_DOWN false st = (st, [])) := by
  obtain ⟨h0, h1⟩ := hsel
  rw [WM_KEYDOWN_up_plain os hwnd st hshown, WM_KEYDOWN_down_plain os hwnd st hshown]
  unfold clampIndex
  refine ⟨?_, ?_, ?_, ?_, ?_, ?_⟩
  · by_cases hp : st.g_selectedIndex > 0
    · rw [if_pos hp]
      simp only
      omega
    · rw [if_neg hp]
      simp only
      omega
  · by_cases hp : st.g_selectedIndex > 0
    · rw [if_pos hp]
    · rw [if_neg hp]
  · intro hz
    rw [if_neg (by omega)]
  · by_cases hp : st.g_selectedIndex < st.g_windowCount - 1
    · rw [if_pos hp]
      simp only
      omega
    · rw [if_neg hp]
      simp only
      omega
  · by_cases hp : st.g_selectedIndex < st.g_windowCount - 1
    · rw [if_pos hp]
    · rw [if_neg hp]
  · intro hz
    rw [if_neg (by omega)]

/-- C10, at the input of the claim: five entries, the cursor on row `0`; the
Up key leaves the cursor on row `0`. -/
theorem WM_KEYDOWN_move_selection_witness :
    (WindowProc_WM_KEYDOWN osAllLive 1 VK_UP false
      (shownWith [winA, winB, winC, winD, winE] 0)).1.g_selectedIndex = 0 :=
  (WM_KEYDOWN_move_selection osAllLive 1 (shownWith [winA, winB, winC, winD, winE] 0)
    rfl (by decide) (by decide)).1.trans (by decide)

/-! ## The overlay state machine -/

theorem SwapWindows_length (i j : Int) (st : State) :
    (SwapWindows i j st).g_windows.length = st.g_windows.length := by
  by_cases h : SwapInRange i j st
  · obtain ⟨a, b, _, _, hs⟩ := SwapWindows_of_inRange i j st h
    rw [hs]
    simp
  · rw [SwapWindows_of_not_inRange i j st h]

theorem SwapWindows_windowCount (i j : Int) (st : State) :
    (SwapWindows i j st).g_windowCount = st.g_windowCount := by
  unfold State.g_windowCount
  rw [SwapWindows_length]

theorem SwapWindows_selectedIndex (i j : Int) (st : State) :
    (SwapWindows i j st).g_selectedIndex = st.g_selectedIndex := by
  by_cases h : SwapInRange i j st
  · obtain ⟨a, b, _, _, hs⟩ := SwapWindows_of_inRange i j st h
    rw [hs]
  · rw [SwapWindows_of_not_inRange i j st h]

theorem SwapWindows_showingTabs (i j : Int) (st : State) :
    (SwapWindows i j st).g_showingTabs = st.g_showingTabs := by
  by_cases h : SwapInRange i j st
  · obtain ⟨a, b, _, _, hs⟩ := SwapWindows_of_inRange i j st h
    rw [hs]
  · rw [SwapWindows_of_not_inRange i j st h]

theorem UpdateWindowList_selectedIndex (os : OS) (S : List WindowInfo) (st : State) :
    (UpdateWindowList os S st).g_selectedIndex = st.g_selectedIndex := by
  unfold UpdateWindowList
  split <;> rfl

theorem UpdateWindowList_showingTabs (os : OS) (S : List WindowInfo) (st : State) :
    (UpdateWindowList os S st).g_showingTabs = st.g_showingTabs := by
  unfold UpdateWindowList
  split <;> rfl

theorem LoadWindowOrder_selectedIndex (d : Desktop) (rt : CRuntime)
    (file : Option (List Nat)) (st : State) :
    (LoadWindowOrder d rt file st).g_selectedIndex = st.g_selectedIndex := by
  unfold LoadWindowOrder
  split
  · rfl
  · split
    · rfl
    · simp only
      split_ifs <;> rfl

theorem CursorInRange_of_zero (st : State) (h : st.g_selectedIndex = 0) :
    CursorInRange st := by
  intro hpos
  rw [h]
  exact ⟨le_refl 0, hpos⟩

theorem CursorInRange_HideTabsOverlay (hwnd : HWND) (st : State) (h : CursorInRange st) :
    CursorInRange (HideTabsOverlay hwnd st).1 := h

theorem CursorInRange_WM_KEYDOWN (os : OS) (hwnd : HWND) (wParam : Nat) (ctrl : Bool)
    (st : State) (h : CursorInRange st) :
    CursorInRange (WindowProc_WM_KEYDOWN os hwnd wParam ctrl st).1 := by
  have hc : st.g_windowCount = (st.g_windows.length : Int) := rfl
  unfold CursorInRange at h
  unfold WindowProc_WM_KEYDOWN
  simp only
  split_ifs with h1 h2 h3 h4 h5 h6 h7 h8 h9 h10 h11 h12 h13
  all_goals
    simp only [CursorInRange, State.g_windowCount, HideTabsOverlay, SwapWindows_length,
      SwapWindows_selectedIndex]
    intro hpos
    have h' := h (by rw [hc]; exact hpos)
    omega

theorem ShowTabsOverlay_selectedIndex (os : OS) (fg : HWND) (S : List WindowInfo) (hwnd : HWND)
    (st : State) : (ShowTabsOverlay os fg S hwnd st).1.g_selectedIndex = 0 := by
  unfold ShowTabsOverlay
  simp only
  split_ifs <;> simp [UpdateWindowList_selectedIndex]

theorem CursorInRange_WindowProc (os : OS) (fg : HWND) (S : List WindowInfo) (hwnd : HWND)
    (uMsg : Msg) (st : State) (h : CursorInRange st) :
    CursorInRange (WindowProc os fg S hwnd uMsg st).1 := by
  cases uMsg with
  | WM_HOTKEY wParam =>
    unfold WindowProc
    simp only
    split_ifs
    · exact CursorInRange_of_zero _ (ShowTabsOverlay_selectedIndex os fg S hwnd st)
    · exact h
    · exact h
  | WM_KEYDOWN wParam ctrl => exact CursorInRange_WM_KEYDOWN os hwnd wParam ctrl st h
  | WM_ACTIVATE wParam =>
    unfold WindowProc
    simp only
    split_ifs
    · exact h
    · exact h

theorem CursorInRange_of_Reachable (st : State) (h : Reachable st) : CursorInRange st := by
  induction h with
  | start d rt file g_mainHwnd =>
    exact CursorInRange_of_zero _ (LoadWindowOrder_selectedIndex d rt file _)
  | step os fg S hwnd uMsg st _ ih => exact CursorInRange_WindowProc os fg S hwnd uMsg st ih

/-- C11: in every state reached from the start (after `LoadWindowOrder`) by
any sequence of hotkey, key-down and activation messages, whatever the
enumeration yields at each show: when the list is not empty,
`0 ≤ g_selectedIndex < g_windowCount`; and whenever the toggle hotkey takes the
overlay from hidden to shown, `g_selectedIndex` is `0` right after. -/
theorem Reachable_cursor_in_range (st : State) (h : Reachable st) :
    (0 < st.g_windows.length →
        0 ≤ st.g_selectedIndex ∧ st.g_selectedIndex < st.g_windowCount)
    ∧ (∀ (os : OS) (foreground : HWND) (tempWindows : List WindowInfo) (hwnd : HWND),
        st.g_showingTabs = false →
        (WindowProc os foreground tempWindows hwnd (Msg.WM_HOTKEY 1) st).1.g_showingTabs = true →
        (WindowProc os foreground tempWindows hwnd (Msg.WM_HOTKEY 1) st).1.g_selectedIndex
          = 0) := by
  refine ⟨?_, ?_⟩
  · intro hpos
    exact CursorInRange_of_Reachable st h (by unfold State.g_windowCount; exact_mod_cast hpos)
  · intro os fg S hwnd hhid _
    unfold WindowProc
    simp only [hhid]
    exact ShowTabsOverlay_selectedIndex os fg S hwnd st

/-- C11, at a concrete state: from the start with no file, the toggle hotkey
with the enumeration `[101, 102]` leaves the cursor on a row of the list. -/
theorem Reachable_cursor_in_range_witness :
    0 ≤ (WindowProc osAllLive 101 [winA, winB] 1 (Msg.WM_HOTKEY 1)
          (LoadWindowOrder desktopPlain rtDecimal none (startState 1))).1.g_selectedIndex
    ∧ (WindowProc osAllLive 101 [winA, winB] 1 (Msg.WM_HOTKEY 1)
          (LoadWindowOrder desktopPlain rtDecimal none (startState 1))).1.g_selectedIndex
        < (WindowProc osAllLive 101 [winA, winB] 1 (Msg.WM_HOTKEY 1)
          (LoadWindowOrder desktopPlain rtDecimal none (startState 1))).1.g_windowCount :=
  (Reachable_cursor_in_range _
    (Reachable.step osAllLive 101 [winA, winB] 1 (Msg.WM_HOTKEY 1) _
      (Reachable.start desktopPlain rtDecimal none 1))).1 (by decide)

/-! ## The `WM_KEYDOWN` case: reordering with Ctrl -/

theorem perm_cons_set (xs : List WindowInfo) (j : Nat) (x b : WindowInfo)
    (h : xs[j]? = some b) : (b :: xs.set j x).Perm (x :: xs) := by
  induction xs generalizing j with
  | nil => simp at h
  | cons y ys ih =>
    cases j with
    | zero =>
      simp only [List.getElem?_cons_zero, Option.some.injEq] at h
      subst h
      simp only [List.set_cons_zero]
      exact List.Perm.swap _ _ _
    | succ j =>
      simp only [List.getElem?_cons_succ] at h
      simp only [List.set_cons_succ]
      exact ((List.Perm.swap y b _).trans ((ih j h).cons y)).trans (List.Perm.swap x y ys)

theorem perm_swapped (l : List WindowInfo) (i j : Nat) (a b : WindowInfo)
    (hi : l[i]? = some a) (hj : l[j]? = some b) (hij : i ≠ j) :
    ((l.set i b).set j a).Perm l := by
  induction l generalizing i j with
  | nil => simp at hi
  | cons x xs ih =>
    cases i with
    | zero =>
      cases j with
      | zero => exact absurd rfl hij
      | succ j =>
        simp only [List.getElem?_cons_zero, Option.some.injEq] at hi
        simp only [List.getElem?_cons_succ] at hj
        subst hi
        simp only [List.set_cons_zero, List.set_cons_succ]
        exact perm_cons_set xs j x b hj
    | succ i =>
      cases j with
      | zero =>
        simp only [List.getElem?_cons_zero, Option.some.injEq] at hj
        simp only [List.getElem?_cons_succ] at hi
        subst hj
        simp only [List.set_cons_zero, List.set_cons_succ]
        exact perm_cons_set xs i x a hi
      | succ j =>
        simp only [List.getElem?_cons_succ] at hi hj
        simp only [List.set_cons_succ]
        exact (ih i j hi hj (fun e => hij (by rw [e]))).cons x

theorem WM_KEYDOWN_up_ctrl (os : OS) (hwnd : HWND) (st : State)
    (hshown : st.g_showingTabs = true) :
    WindowProc_WM_KEYDOWN os hwnd VK_UP true st
      = if st.g_selectedIndex > 0 then
          ({ SwapWindows st.g_selectedIndex (st.g_selectedIndex - 1) st with
              g_selectedIndex :=
                (SwapWindows st.g_selectedIndex (st.g_selectedIndex - 1) st).g_selectedIndex - 1 },
           [Effect.InvalidateRect hwnd])
        else (st, []) := by
  unfold WindowProc_WM_KEYDOWN
  simp [hshown]

theorem WM_KEYDOWN_down_ctrl (os : OS) (hwnd : HWND) (st : State)
    (hshown : st.g_showingTabs = true) :
    WindowProc_WM_KEYDOWN os hwnd VK_DOWN true st
      = if st.g_selectedIndex < st.g_windowCount - 1 then
          ({ SwapWindows st.g_selectedIndex (st.g_selectedIndex + 1) st with
              g_selectedIndex :=
                (SwapWindows st.g_selectedIndex (st.g_selectedIndex + 1) st).g_selectedIndex + 1 },
           [Effect.InvalidateRect hwnd])
        else (st, []) := by
  unfold WindowProc_WM_KEYDOWN
  have hne : ¬ (VK_DOWN = VK_UP) := by decide
  simp [hshown, hne]

theorem SwapWindows_rows (i j : Int) (st : State) (h : SwapInRange i j st) :
    (SwapWindows i j st).g_windows[i.toNat]? = st.g_windows[j.toNat]?
    ∧ (SwapWindows i j st).g_windows[j.toNat]? = st.g_windows[i.toNat]?
    ∧ (∀ k : Nat, k ≠ i.toNat → k ≠ j.toNat →
        (SwapWindows i j st).g_windows[k]? = st.g_windows[k]?)
    ∧ (SwapWindows i j st).g_windows.Perm st.g_windows := by
  obtain ⟨a, b, ha, hb, hs⟩ := SwapWindows_of_inRange i j st h
  have hne : i.toNat ≠ j.toNat := by
    obtain ⟨h1, _, h3, _, h5⟩ := h
    omega
  rw [hs]
  simp only
  refine ⟨?_, ?_, ?_, perm_swapped _ _ _ a b ha hb hne⟩
  · rw [getElem?_swapped _ _ _ _ a b ha hb hne, if_neg hne, if_pos rfl, hb]
  · rw [getElem?_swapped _ _ _ _ a b ha hb hne, if_pos rfl, ha]
  · intro k hki hkj
    rw [getElem?_swapped _ _ _ _ a b ha hb hne, if_neg hkj, if_neg hki]

/-- C12: in the shown state with the cursor on a row `k` of the list and Ctrl
held. Up with `k > 0` exchanges rows `k` and `k - 1` and puts the cursor on
`k - 1`; Down with `k < g_windowCount - 1` exchanges rows `k` and `k + 1` and
puts the cursor on `k + 1`. In both cases the row under the cursor after the
key holds the entry that was under the cursor before it, every other row is
unchanged and the list is a permutation of the old one. Up on row `0` and Down
on the last row change nothing. -/
theorem WM_KEYDOWN_reorder (os : OS) (hwnd : HWND) (st : State)
    (hshown : st.g_showingTabs = true)
    (hsel : 0 ≤ st.g_selectedIndex ∧ st.g_selectedIndex < st.g_windowCount) :
    (0 < st.g_selectedIndex →
        (WindowProc_WM_KEYDOWN os hwnd VK_UP true st).1.g_selectedIndex
          = st.g_selectedIndex - 1
        ∧ (WindowProc_WM_KEYDOWN os hwnd VK_UP true st).1.g_windows[
              (st.g_selectedIndex - 1).toNat]?
            = st.g_windows[st.g_selectedIndex.toNat]?
        ∧ (WindowProc_WM_KEYDOWN os hwnd VK_UP true st).1.g_windows[st.g_selectedIndex.toNat]?
            = st.g_windows[(st.g_selectedIndex - 1).toNat]?
        ∧ (∀ k : Nat, k ≠ st.g_selectedIndex.toNat → k ≠ (st.g_selectedIndex - 1).toNat →
            (WindowProc_WM_KEYDOWN os hwnd VK_UP true st).1.g_windows[k]? = st.g_windows[k]?)
        ∧ (WindowProc_WM_KEYDOWN os hwnd VK_UP true st).1.g_windows.Perm st.g_windows)
    ∧ (st.g_selectedIndex < st.g_windowCount - 1 →
        (WindowProc_WM_KEYDOWN os hwnd VK_DOWN true st).1.g_selectedIndex
          = st.g_selectedIndex + 1
        ∧ (WindowProc_WM_KEYDOWN os hwnd VK_DOWN true st).1.g_windows[
              (st.g_selectedIndex + 1).toNat]?
            = st.g_windows[st.g_selectedIndex.toNat]?
        ∧ (WindowProc_WM_KEYDOWN os hwnd VK_DOWN true st).1.g_windows[st.g_selectedIndex.toNat]?
            = st.g_windows[(st.g_selectedIndex + 1).toNat]?
        ∧ (∀ k : Nat, k ≠ st.g_selectedIndex.toNat → k ≠ (st.g_selectedIndex + 1).toNat →
            (WindowProc_WM_KEYDOWN os hwnd VK_DOWN true st).1.g_windows[k]? = st.g_windows[k]?)
        ∧ (WindowProc_WM_KEYDOWN os hwnd VK_DOWN true st).1.g_windows.Perm st.g_windows)
    ∧ (st.g_selectedIndex = 0 → WindowProc_WM_KEYDOWN os hwnd VK_UP true st = (st, []))
    ∧ (st.g_selectedIndex = st.g_windowCount - 1 →
        WindowProc_WM_KEYDOWN os hwnd VK_DOWN true st = (st, [])) := by
  obtain ⟨h0, h1⟩ := hsel
  rw [WM_KEYDOWN_up_ctrl os hwnd st hshown, WM_KEYDOWN_down_ctrl os hwnd st hshown]
  refine ⟨?_, ?_, ?_, ?_⟩
  · intro hpos
    have hr : SwapInRange st.g_selectedIndex (st.g_selectedIndex - 1) st :=
      ⟨h0, h1, by omega, by omega, by omega⟩
    obtain ⟨r1, r2, r3, r4⟩ := SwapWindows_rows _ _ st hr
    rw [if_pos hpos]
    simp only [SwapWindows_selectedIndex]
    exact ⟨trivial, r2, r1, r3, r4⟩
  · intro hlt
    have hr : SwapInRange st.g_selectedIndex (st.g_selectedIndex + 1) st :=
      ⟨h0, h1, by omega, by omega, by omega⟩
    obtain ⟨r1, r2, r3, r4⟩ := SwapWindows_rows _ _ st hr
    rw [if_pos hlt]
    simp only [SwapWindows_selectedIndex]
    exact ⟨trivial, r2, r1, r3, r4⟩
  · intro hz
    rw [if_neg (by omega)]
  · intro hz
    rw [if_neg (by omega)]

/-- C12, at the input of the claim: `[101, 102, 103]` with the cursor on row `1`
and Ctrl+Up gives `[102, 101, 103]` with the cursor on row `0`. -/
theorem WM_KEYDOWN_reorder_witness :
    handles (WindowProc_WM_KEYDOWN osAllLive 1 VK_UP true
        (shownWith [winA, winB, winC] 1)).1.g_windows = [102, 101, 103]
    ∧ (WindowProc_WM_KEYDOWN osAllLive 1 VK_UP true
        (shownWith [winA, winB, winC] 1)).1.g_selectedIndex = 1 - 1 :=
  ⟨by decide,
   ((WM_KEYDOWN_reorder osAllLive 1 (shownWith [winA, winB, winC] 1) rfl
      (by decide)).1 (by decide)).1⟩

/-! ## The toggle hotkey and the activating keys -/

theorem WM_HOTKEY_hidden (os : OS) (fg : HWND) (S : List WindowInfo) (hwnd : HWND)
    (st : State) (hhid : st.g_showingTabs = false) :
    WindowProc os fg S hwnd (Msg.WM_HOTKEY 1) st = ShowTabsOverlay os fg S hwnd st := by
  unfold WindowProc
  simp [hhid]

theorem ShowTabsOverlay_windows (os : OS) (fg : HWND) (S : List WindowInfo) (hwnd : HWND)
    (st : State) :
    (ShowTabsOverlay os fg S hwnd st).1.g_windows = (UpdateWindowList os S st).g_windows := by
  have e : (UpdateWindowList os S
      { st with g_previouslyFocusedWindow := fg, g_selectedIndex := 0 }).g_windows
      = (UpdateWindowList os S st).g_windows := by
    unfold UpdateWindowList
    simp only
    split <;> rfl
  unfold ShowTabsOverlay
  simp only
  split_ifs <;> exact e

/-- C13: from the hidden state the toggle hotkey leaves in `g_windows` the list
the reconciliation pass produces. When that list is empty the overlay stays
hidden and the only effect is one `MessageBox` notice; when it is not empty
the overlay is shown and no notice is emitted. -/
theorem WM_HOTKEY_show (os : OS) (foreground : HWND) (tempWindows : List WindowInfo)
    (hwnd : HWND) (st : State) (hhid : st.g_showingTabs = false) :
    (WindowProc os foreground tempWindows hwnd (Msg.WM_HOTKEY 1) st).1.g_windows
        = (UpdateWindowList os tempWindows st).g_windows
    ∧ ((UpdateWindowList os tempWindows st).g_windows = [] →
        (WindowProc os foreground tempWindows hwnd (Msg.WM_HOTKEY 1) st).1.g_showingTabs = false
        ∧ (WindowProc os foreground tempWindows hwnd (Msg.WM_HOTKEY 1) st).2
            = [Effect.MessageBox]
        ∧ List.count Effect.MessageBox
            (WindowProc os foreground tempWindows hwnd (Msg.WM_HOTKEY 1) st).2 = 1)
    ∧ ((UpdateWindowList os tempWindows st).g_windows ≠ [] →
        (WindowProc os foreground tempWindows hwnd (Msg.WM_HOTKEY 1) st).1.g_showingTabs = true
        ∧ Effect.MessageBox ∉
            (WindowProc os foreground tempWindows hwnd (Msg.WM_HOTKEY 1) st).2) := by
  rw [WM_HOTKEY_hidden os foreground tempWindows hwnd st hhid]
  have hw := ShowTabsOverlay_windows os foreground tempWindows hwnd st
  refine ⟨hw, ?_, ?_⟩
  · intro hnil
    have hcount : (UpdateWindowList os tempWindows
        { st with g_previouslyFocusedWindow := foreground, g_selectedIndex := 0 }).g_windowCount
        = 0 := by
      have := hw
      unfold ShowTabsOverlay at this
      simp only at this
      split_ifs at this with hc
      · exact hc
      · simp only at this
        unfold State.g_windowCount
        rw [this, hnil]
        rfl
    unfold ShowTabsOverlay
    simp only [hcount, if_true]
    refine ⟨?_, ?_, ?_⟩
    · rw [UpdateWindowList_showingTabs]
      exact hhid
    · trivial
    · simp
  · intro hne
    have hcount : ¬ (UpdateWindowList os tempWindows
        { st with g_previouslyFocusedWindow := foreground, g_selectedIndex := 0 }).g_windowCount
        = 0 := by
      intro hc
      apply hne
      rw [← hw]
      unfold ShowTabsOverlay
      simp only [hc, if_true]
      unfold State.g_windowCount at hc
      exact List.length_eq_zero.1 (by exact_mod_cast hc)
    unfold ShowTabsOverlay
    simp only [hcount, if_false]
    refine ⟨?_, ?_⟩
    · trivial
    · simp

/-- C13, at two concrete inputs: from the start an empty enumeration keeps the
overlay hidden with one notice, the enumeration `[101, 102]` shows it. -/
theorem WM_HOTKEY_show_witness :
    ((WindowProc osAllLive 101 [] 1 (Msg.WM_HOTKEY 1) initialState).1.g_showingTabs = false
      ∧ (WindowProc osAllLive 101 [] 1 (Msg.WM_HOTKEY 1) initialState).2 = [Effect.MessageBox])
    ∧ (WindowProc osAllLive 101 [winA, winB] 1 (Msg.WM_HOTKEY 1) initialState).1.g_showingTabs
        = true :=
  ⟨⟨((WM_HOTKEY_show osAllLive 101 [] 1 initialState rfl).2.1 (by decide)).1,
    ((WM_HOTKEY_show osAllLive 101 [] 1 initialState rfl).2.1 (by decide)).2.1⟩,
   ((WM_HOTKEY_show osAllLive 101 [winA, winB] 1 initialState rfl).2.2 (by decide)).1⟩

theorem FocusSelectedWindow_of_live (os : OS) (st : State) (w : WindowInfo)
    (h0 : 0 ≤ st.g_selectedIndex)
    (hw : st.g_windows[st.g_selectedIndex.toNat]? = some w)
    (hl : os.IsWindow w.hwnd = true) :
    FocusSelectedWindow os st
      = (if os.IsIconic w.hwnd then [Effect.ShowWindowRestore w.hwnd] else [])
        ++ [Effect.SetForegroundWindow w.hwnd, Effect.SetFocus w.hwnd] := by
  have hlt : st.g_selectedIndex.toNat < st.g_windows.length := (List.getElem?_eq_some.1 hw).1
  have hne : st.g_windows.isEmpty = false := by
    cases hl' : st.g_windows with
    | nil => rw [hl'] at hlt; simp at hlt
    | cons x xs => rfl
  have hg : (st.g_windows.isEmpty || decide (st.g_selectedIndex < 0)
      || decide (st.g_selectedIndex ≥ st.g_windowCount)) = false := by
    unfold State.g_windowCount
    simp only [hne, Bool.false_or, Bool.or_eq_false_iff, decide_eq_false_iff_not, not_lt,
      ge_iff_le, not_le]
    constructor <;> omega
  unfold FocusSelectedWindow
  rw [hg, hw]
  simp [hl]

theorem WM_KEYDOWN_return (os : OS) (hwnd : HWND) (ctrl : Bool) (st : State)
    (hshown : st.g_showingTabs = true) :
    WindowProc_WM_KEYDOWN os hwnd VK_RETURN ctrl st
      = ({ st with g_showingTabs := false },
          FocusSelectedWindow os st ++ [Effect.ShowWindowHide hwnd]) := by
  have h1 : ¬ (VK_RETURN = VK_UP) := by decide
  have h2 : ¬ (VK_RETURN = VK_DOWN) := by decide
  unfold WindowProc_WM_KEYDOWN
  simp [hshown, h1, h2, HideTabsOverlay]

theorem WM_KEYDOWN_digit (os : OS) (hwnd : HWND) (ctrl : Bool) (st : State) (n : Nat)
    (hshown : st.g_showingTabs = true) (h1 : 1 ≤ n) (h9 : n ≤ 9) :
    WindowProc_WM_KEYDOWN os hwnd (0x30 + n) ctrl st
      = if (n : Int) ≤ st.g_windowCount then
          ({ st with g_selectedIndex := (n : Int) - 1, g_showingTabs := false },
            FocusSelectedWindow os { st with g_selectedIndex := (n : Int) - 1 }
              ++ [Effect.ShowWindowHide hwnd])
        else (st, []) := by
  have e1 : ¬ (0x30 + n = VK_UP) := by unfold VK_UP; omega
  have e2 : ¬ (0x30 + n = VK_DOWN) := by unfold VK_DOWN; omega
  have e3 : ¬ (0x30 + n = VK_RETURN) := by unfold VK_RETURN; omega
  have e4 : ¬ (0x30 + n = VK_ESCAPE) := by unfold VK_ESCAPE; omega
  have e5 : 0x31 ≤ 0x30 + n ∧ 0x30 + n ≤ 0x39 := by omega
  have e6 : ((0x30 + n : Nat) : Int) - 0x31 = (n : Int) - 1 := by push_cast; omega
  unfold WindowProc_WM_KEYDOWN
  simp only [hshown, Bool.not_true, Bool.false_eq_true, if_false, if_neg e1, if_neg e2,
    if_neg e3, if_neg e4, if_pos e5, e6, HideTabsOverlay]
  by_cases hc : (n : Int) ≤ st.g_windowCount
  · rw [if_pos hc, if_pos (by omega)]
  · rw [if_neg hc, if_neg (by omega)]

/-- C14, as the claim states it, fails: in the shown state with the three
entries `[101, 102, 103]` the key `5` (code `0x35`) changes nothing: the
overlay stays shown and nothing is focused. -/
theorem WM_KEYDOWN_digit_counterexample :
    (shownWith [winA, winB, winC] 0).g_showingTabs = true
    ∧ WindowProc_WM_KEYDOWN osAllLive 1 0x35 false (shownWith [winA, winB, winC] 0)
        = (shownWith [winA, winB, winC] 0, [])
    ∧ (WindowProc_WM_KEYDOWN osAllLive 1 0x35 false
        (shownWith [winA, winB, winC] 0)).1.g_showingTabs = true := by
  decide

/-- C14 (amended): in every shown state Enter hides the overlay after
`FocusSelectedWindow` has run on the entry at `g_selectedIndex`; a digit key
`n` of `1`-`9` with `n ≤ g_windowCount` sets `g_selectedIndex` to `n - 1` and
then hides the overlay after `FocusSelectedWindow` has run on that entry; a
digit key with `n > g_windowCount` changes nothing and the overlay stays shown.
When the cursor is on a row holding an entry whose handle passes `IsWindow`,
`FocusSelectedWindow` restores that window if it is minimised, then raises and
focuses it. -/
theorem WM_KEYDOWN_activate (os : OS) (hwnd : HWND) (ctrl : Bool) (st : State)
    (hshown : st.g_showingTabs = true) :
    WindowProc_WM_KEYDOWN os hwnd VK_RETURN ctrl st
        = ({ st with g_showingTabs := false },
            FocusSelectedWindow os st ++ [Effect.ShowWindowHide hwnd])
    ∧ (∀ n : Nat, 1 ≤ n → n ≤ 9 → (n : Int) ≤ st.g_windowCount →
        WindowProc_WM_KEYDOWN os hwnd (0x30 + n) ctrl st
          = ({ st with g_selectedIndex := (n : Int) - 1, g_showingTabs := false },
              FocusSelectedWindow os { st with g_selectedIndex := (n : Int) - 1 }
                ++ [Effect.ShowWindowHide hwnd]))
    ∧ (∀ n : Nat, 1 ≤ n → n ≤ 9 → st.g_windowCount < (n : Int) →
        WindowProc_WM_KEYDOWN os hwnd (0x30 + n) ctrl st = (st, []))
    ∧ (∀ (s : State) (w : WindowInfo), 0 ≤ s.g_selectedIndex →
        s.g_windows[s.g_selectedIndex.toNat]? = some w → os.IsWindow w.hwnd = true →
        FocusSelectedWindow os s
          = (if os.IsIconic w.hwnd then [Effect.ShowWindowRestore w.hwnd] else [])
            ++ [Effect.SetForegroundWindow w.hwnd, Effect.SetFocus w.hwnd]) := by
  refine ⟨WM_KEYDOWN_return os hwnd ctrl st hshown, ?_, ?_, ?_⟩
  · intro n h1 h9 hle
    rw [WM_KEYDOWN_digit os hwnd ctrl st n hshown h1 h9, if_pos hle]
  · intro n h1 h9 hlt
    rw [WM_KEYDOWN_digit os hwnd ctrl st n hshown h1 h9, if_neg (by omega)]
  · intro s w h0 hw hl
    exact FocusSelectedWindow_of_live os s w h0 hw hl

/-- C14 (amended), at a concrete input: three entries shown, the key `2`
focuses the window `102` and hides the overlay. -/
theorem WM_KEYDOWN_activate_witness :
    WindowProc_WM_KEYDOWN osAllLive 1 (0x30 + 2) false (shownWith [winA, winB, winC] 0)
      = ({ shownWith [winA, winB, winC] 0 with
            g_selectedIndex := ((2 : Nat) : Int) - 1, g_showingTabs := false },
          FocusSelectedWindow osAllLive
              { shownWith [winA, winB, winC] 0 with g_selectedIndex := ((2 : Nat) : Int) - 1 }
            ++ [Effect.ShowWindowHide 1])
    ∧ WindowProc_WM_KEYDOWN osAllLive 1 (0x30 + 2) false (shownWith [winA, winB, winC] 0)
      = ({ shownWith [winA, winB, winC] 0 with g_selectedIndex := 1, g_showingTabs := false },
          [Effect.SetForegroundWindow 102, Effect.SetFocus 102, Effect.ShowWindowHide 1]) :=
  ⟨(WM_KEYDOWN_activate osAllLive 1 false (shownWith [winA, winB, winC] 0) rfl).2.1 2
      (by decide) (by decide) (by decide),
   by decide⟩

/-! ## The classifier `IsValidWindow` -/

theorem wcsstr_iff (str strSearch : WString) :
    wcsstr str strSearch = true ↔ strSearch <:+: str := by
  unfold wcsstr
  rw [List.any_eq_true]
  constructor
  · rintro ⟨t, ht, hp⟩
    rw [List.mem_tails] at ht
    rw [List.isPrefixOf_iff_prefix] at hp
    exact List.infix_iff_prefix_suffix.2 ⟨t, hp, ht⟩
  · intro h
    obtain ⟨t, hp, ht⟩ := List.infix_iff_prefix_suffix.1 h
    exact ⟨t, (List.mem_tails _ _).2 ht, List.isPrefixOf_iff_prefix.2 hp⟩

theorem any_wcsstr_iff (l : List WString) (str : WString) :
    l.any (fun p => wcsstr str p) = true ↔ ∃ p ∈ l, p <:+: str := by
  rw [List.any_eq_true]
  constructor
  · rintro ⟨p, hp, hw⟩
    exact ⟨p, hp, (wcsstr_iff str p).1 hw⟩
  · rintro ⟨p, hp, hw⟩
    exact ⟨p, hp, (wcsstr_iff str p).2 hw⟩

theorem any_wcsstr_false_iff (l : List WString) (str : WString) :
    l.any (fun p => wcsstr str p) = false ↔ ∀ p ∈ l, ¬ p <:+: str := by
  rw [← Bool.not_eq_true, any_wcsstr_iff]
  constructor
  · intro h p hp hi
    exact h ⟨p, hp, hi⟩
  · rintro h ⟨p, hp, hi⟩
    exact h p hp hi

theorem topLevel_test (d : Desktop) (hwnd : HWND) :
    (d.GetParent hwnd != 0 && d.GetParent hwnd != d.GetDesktopWindow) = false
      ↔ TopLevel d hwnd := by
  unfold TopLevel
  by_cases h1 : d.GetParent hwnd = 0
  · simp [h1]
  · by_cases h2 : d.GetParent hwnd = d.GetDesktopWindow
    · simp [h2]
    · simp [h1, h2]

theorem IsValidWindow_of_rules1to4 (d : Desktop) (g_mainHwnd hwnd : HWND)
    (h : PassesRules1to4 d g_mainHwnd hwnd) :
    IsValidWindow d g_mainHwnd hwnd
      = if allowedTitles.any (fun p => wcsstr (d.GetWindowTextW hwnd) p) then
          (if d.GetParent hwnd != 0 && d.GetParent hwnd != d.GetDesktopWindow then false
           else true)
        else if excludedClasses.any (fun p => wcsstr (d.GetClassNameW hwnd) p) then false
        else if toolWindowRefused d hwnd (d.GetClassNameW hwnd) (d.GetExStyle hwnd) then false
        else styleAndSizeRules d hwnd (d.GetStyle hwnd) := by
  obtain ⟨hv, hm, ht, hd⟩ := h
  have hd' := (any_wcsstr_false_iff excludedTitles (d.GetWindowTextW hwnd)).2 hd
  have hlen : ¬ (d.GetWindowTextW hwnd).length = 0 := fun e => ht (List.length_eq_zero.1 e)
  unfold IsValidWindow
  simp only [hv, Bool.not_true, Bool.false_eq_true, if_false, if_neg hm, if_neg hlen, hd']

theorem IsValidWindow_of_rules1to6 (d : Desktop) (g_mainHwnd hwnd : HWND)
    (h : PassesRules1to6 d g_mainHwnd hwnd) :
    IsValidWindow d g_mainHwnd hwnd
      = if toolWindowRefused d hwnd (d.GetClassNameW hwnd) (d.GetExStyle hwnd) then false
        else styleAndSizeRules d hwnd (d.GetStyle hwnd) := by
  obtain ⟨h4, ha, hc⟩ := h
  have ha' : allowedTitles.any (fun p => wcsstr (d.GetWindowTextW hwnd) p) = false := by
    rw [any_wcsstr_false_iff]
    intro p hp hi
    exact ha ⟨p, hp, hi⟩
  have hc' := (any_wcsstr_false_iff excludedClasses (d.GetClassNameW hwnd)).2 hc
  rw [IsValidWindow_of_rules1to4 d g_mainHwnd hwnd h4]
  simp only [ha', hc', Bool.false_eq_true, if_false]

/-- C15: `IsValidWindow` returns `FALSE` for every window that is not visible,
or is the overlay's own window `g_mainHwnd`, or has an empty title, or whose
title contains an entry of the deny list `excludedTitles` as a substring,
whatever its title otherwise contains (an allow-list entry included) and
whatever its class, styles, parent and rectangle. -/
theorem IsValidWindow_early_rules (d : Desktop) (g_mainHwnd hwnd : HWND)
    (h : d.IsWindowVisible hwnd = false ∨ hwnd = g_mainHwnd ∨ d.GetWindowTextW hwnd = []
      ∨ ∃ p ∈ excludedTitles, p <:+: d.GetWindowTextW hwnd) :
    IsValidWindow d g_mainHwnd hwnd = false := by
  unfold IsValidWindow
  by_cases hv : d.IsWindowVisible hwnd = true
  · simp only [hv, Bool.not_true, Bool.false_eq_true, if_false]
    by_cases hm : hwnd = g_mainHwnd
    · rw [if_pos hm]
    · rw [if_neg hm]
      by_cases hl : (d.GetWindowTextW hwnd).length = 0
      · rw [if_pos hl]
      · rw [if_neg hl]
        have hex : excludedTitles.any (fun p => wcsstr (d.GetWindowTextW hwnd) p) = true := by
          rcases h with h | h | h | h
          · rw [h] at hv; exact absurd hv (by simp)
          · exact absurd h hm
          · rw [h] at hl; exact absurd rfl hl
          · exact (any_wcsstr_iff _ _).2 h
        simp only [hex, if_true]
  · have hv' : d.IsWindowVisible hwnd = false := by
      cases hb : d.IsWindowVisible hwnd
      · rfl
      · exact absurd hb hv
    simp only [hv', Bool.not_false, if_true]

/-- C16: for every window that is visible, is not the overlay, has a non-empty
title that contains no deny-list entry and contains an allow-list entry,
`IsValidWindow` returns `TRUE` exactly when the window has no parent or its
parent is the desktop root, whatever its class name, style bits, extended
style bits and rectangle. -/
theorem IsValidWindow_allow_list (d : Desktop) (g_mainHwnd hwnd : HWND)
    (h : PassesRules1to4 d g_mainHwnd hwnd)
    (ha : HasAllowedTitle (d.GetWindowTextW hwnd)) :
    IsValidWindow d g_mainHwnd hwnd = true ↔ TopLevel d hwnd := by
  have ha' := (any_wcsstr_iff allowedTitles (d.GetWindowTextW hwnd)).2 ha
  rw [IsValidWindow_of_rules1to4 d g_mainHwnd hwnd h, ← topLevel_test]
  simp only [ha', if_true]
  cases (d.GetParent hwnd != 0 && d.GetParent hwnd != d.GetDesktopWindow) <;> simp

/-- C15, at the input of the claim: the title `Google Search - Chrome` contains
the allow-list entry `Chrome` and the deny-list entry `Search`; the window is
refused although it is visible, captioned, top-level and large. -/
theorem IsValidWindow_early_rules_witness :
    HasAllowedTitle (desktopSearchChrome.GetWindowTextW 101)
    ∧ IsValidWindow desktopSearchChrome 1 101 = false :=
  ⟨⟨wide "Chrome", by decide, (wcsstr_iff _ _).1 (by decide)⟩,
   IsValidWindow_early_rules desktopSearchChrome 1 101
    (Or.inr (Or.inr (Or.inr ⟨wide "Search", by decide, (wcsstr_iff _ _).1 (by decide)⟩)))⟩

theorem passesRules1to4_of_tests (d : Desktop) (g_mainHwnd hwnd : HWND)
    (hv : d.IsWindowVisible hwnd = true) (hm : hwnd ≠ g_mainHwnd)
    (ht : d.GetWindowTextW hwnd ≠ [])
    (hd : excludedTitles.any (fun p => wcsstr (d.GetWindowTextW hwnd) p) = false) :
    PassesRules1to4 d g_mainHwnd hwnd :=
  ⟨hv, hm, ht, (any_wcsstr_false_iff _ _).1 hd⟩

theorem passesRules1to6_of_tests (d : Desktop) (g_mainHwnd hwnd : HWND)
    (hv : d.IsWindowVisible hwnd = true) (hm : hwnd ≠ g_mainHwnd)
    (ht : d.GetWindowTextW hwnd ≠ [])
    (hd : excludedTitles.any (fun p => wcsstr (d.GetWindowTextW hwnd) p) = false)
    (ha : allowedTitles.any (fun p => wcsstr (d.GetWindowTextW hwnd) p) = false)
    (hc : excludedClasses.any (fun p => wcsstr (d.GetClassNameW hwnd) p) = false) :
    PassesRules1to6 d g_mainHwnd hwnd := by
  refine ⟨passesRules1to4_of_tests d g_mainHwnd hwnd hv hm ht hd, ?_,
    (any_wcsstr_false_iff _ _).1 hc⟩
  rintro ⟨p, hp, hi⟩
  exact (any_wcsstr_false_iff _ _).1 ha p hp hi

/-- C16, at a concrete input: the title `Untitled - Notepad` matches the allow
list and the window has no parent; it is accepted although its class
`Shell_TrayWnd` is on the class deny list, it has no style bit, it is a tool
window and its rectangle is empty. -/
theorem IsValidWindow_allow_list_witness :
    (excludedClasses.any (fun p => wcsstr (desktopNotepad.GetClassNameW 101) p) = true
      ∧ desktopNotepad.GetStyle 101 = 0)
    ∧ IsValidWindow desktopNotepad 1 101 = true :=
  ⟨by decide,
   (IsValidWindow_allow_list desktopNotepad 1 101
      (passesRules1to4_of_tests desktopNotepad 1 101 rfl (by decide) (by decide) (by decide))
      ⟨wide "Notepad", by decide, (wcsstr_iff _ _).1 (by decide)⟩).2 (Or.inl rfl)⟩

theorem toolWindowRefused_of_tool (d : Desktop) (hwnd : HWND) (className : WString)
    (exStyle : Nat) (htool : hasBits exStyle WS_EX_TOOLWINDOW = true) :
    toolWindowRefused d hwnd className exStyle
      = if wcsstr className (wide "Shell_") || wcsstr className (wide "DV2ControlHost") then
          true
        else
          match d.GetWindowRect hwnd with
          | some rect =>
              if toInt32 (rect.right - rect.left) < 200 ∨ toInt32 (rect.bottom - rect.top) < 100
              then true
              else false
          | none => false := by
  unfold toolWindowRefused
  rw [if_pos htool]

theorem toInt32_of_fits (x : Int) (h1 : -2147483648 ≤ x) (h2 : x ≤ 2147483647) :
    toInt32 x = x := by
  unfold toInt32
  omega

theorem toInt32_width (rect : RECT) (h : RectFitsInt rect) :
    toInt32 (rect.right - rect.left) = rect.right - rect.left :=
  toInt32_of_fits _ h.1 h.2.1

theorem toInt32_height (rect : RECT) (h : RectFitsInt rect) :
    toInt32 (rect.bottom - rect.top) = rect.bottom - rect.top :=
  toInt32_of_fits _ h.2.2.1 h.2.2.2

theorem shell_test (className : WString) :
    (wcsstr className (wide "Shell_") || wcsstr className (wide "DV2ControlHost")) = true
      ↔ (wide "Shell_" <:+: className ∨ wide "DV2ControlHost" <:+: className) := by
  rw [Bool.or_eq_true, wcsstr_iff, wcsstr_iff]

/-- C17: for every window that passes rules 1-6 without matching the allow
list and carries `WS_EX_TOOLWINDOW`: `IsValidWindow` returns `FALSE` when the
class name contains `Shell_` or `DV2ControlHost`; otherwise it returns `FALSE`
when the rectangle can be read and is below the minimum application size
(narrower than 200 or lower than 100); otherwise (width at least 200 and height
at least 100, or the rectangle cannot be read) the value is the one lines
374-409 (rules 8-12) compute. Width and height are `right - left` and
`bottom - top` of a rectangle whose width and height fit an `int`. -/
theorem IsValidWindow_tool_window (d : Desktop) (g_mainHwnd hwnd : HWND)
    (h : PassesRules1to6 d g_mainHwnd hwnd)
    (htool : hasBits (d.GetExStyle hwnd) WS_EX_TOOLWINDOW = true) :
    ((wide "Shell_" <:+: d.GetClassNameW hwnd ∨ wide "DV2ControlHost" <:+: d.GetClassNameW hwnd) →
        IsValidWindow d g_mainHwnd hwnd = false)
    ∧ (¬ (wide "Shell_" <:+: d.GetClassNameW hwnd
          ∨ wide "DV2ControlHost" <:+: d.GetClassNameW hwnd) →
        ∀ rect, d.GetWindowRect hwnd = some rect → RectFitsInt rect →
          (rect.right - rect.left < 200 ∨ rect.bottom - rect.top < 100) →
          IsValidWindow d g_mainHwnd hwnd = false)
    ∧ (¬ (wide "Shell_" <:+: d.GetClassNameW hwnd
          ∨ wide "DV2ControlHost" <:+: d.GetClassNameW hwnd) →
        ∀ rect, d.GetWindowRect hwnd = some rect → RectFitsInt rect →
          200 ≤ rect.right - rect.left → 100 ≤ rect.bottom - rect.top →
          IsValidWindow d g_mainHwnd hwnd = styleAndSizeRules d hwnd (d.GetStyle hwnd))
    ∧ (¬ (wide "Shell_" <:+: d.GetClassNameW hwnd
          ∨ wide "DV2ControlHost" <:+: d.GetClassNameW hwnd) →
        d.GetWindowRect hwnd = none →
        IsValidWindow d g_mainHwnd hwnd = styleAndSizeRules d hwnd (d.GetStyle hwnd)) := by
  rw [IsValidWindow_of_rules1to6 d g_mainHwnd hwnd h,
    toolWindowRefused_of_tool d hwnd _ _ htool]
  refine ⟨?_, ?_, ?_, ?_⟩
  · intro hs
    rw [if_pos ((shell_test _).2 hs)]
    rfl
  · intro hs rect hr hfit hsmall
    rw [if_neg (fun e => hs ((shell_test _).1 e)), hr]
    simp only [toInt32_width rect hfit, toInt32_height rect hfit, hsmall, if_true]
  · intro hs rect hr hfit hw hh
    have hn : ¬ (rect.right - rect.left < 200 ∨ rect.bottom - rect.top < 100) := by omega
    rw [if_neg (fun e => hs ((shell_test _).1 e)), hr]
    simp only [toInt32_width rect hfit, toInt32_height rect hfit, hn, if_false,
      Bool.false_eq_true]
  · intro hs hr
    rw [if_neg (fun e => hs ((shell_test _).1 e)), hr]
    rfl

/-- C17, at three concrete inputs: a tool window of class `Shell_Popup`, a class
that is not on the class deny list, is refused; a tool window of class
`AppWindow` that is 150 wide and 600 high is refused; the same window at 800 by
600 gets the value of the remaining rules, which accept it. -/
theorem IsValidWindow_tool_window_witness :
    IsValidWindow desktopShellTool 1 101 = false
    ∧ IsValidWindow desktopSmallTool 1 101 = false
    ∧ (IsValidWindow desktopLargeTool 1 101
        = styleAndSizeRules desktopLargeTool 101 (desktopLargeTool.GetStyle 101)
      ∧ styleAndSizeRules desktopLargeTool 101 (desktopLargeTool.GetStyle 101) = true) :=
  ⟨(IsValidWindow_tool_window desktopShellTool 1 101
      (passesRules1to6_of_tests desktopShellTool 1 101 rfl (by decide) (by decide) (by decide)
        (by decide) (by decide))
      (by decide)).1 (Or.inl ((wcsstr_iff _ _).1 (by decide))),
   (IsValidWindow_tool_window desktopSmallTool 1 101
      (passesRules1to6_of_tests desktopSmallTool 1 101 rfl (by decide) (by decide) (by decide)
        (by decide) (by decide))
      (by decide)).2.1
      (fun e => absurd ((shell_test _).2 e) (by decide))
      { left := 0, top := 0, right := 150, bottom := 600 } rfl (by decide) (by decide),
   (IsValidWindow_tool_window desktopLargeTool 1 101
      (passesRules1to6_of_tests desktopLargeTool 1 101 rfl (by decide) (by decide) (by decide)
        (by decide) (by decide))
      (by decide)).2.2.1
      (fun e => absurd ((shell_test _).2 e) (by decide))
      { left := 0, top := 0, right := 800, bottom := 600 } rfl (by decide) (by decide)
      (by decide),
   by decide⟩

/-- Where `right - left` does not fit an `int` the 32-bit subtraction of line
399 wraps: for the rectangle `(-1000, 0, 2147483647, 600)` the variable `width`
holds `-2147482649`, and a captioned top-level window is refused by the test of
line 403. -/
theorem IsValidWindow_wide_rect :
    toInt32 (2147483647 - (-1000)) = -2147482649
    ∧ ¬ RectFitsInt { left := -1000, top := 0, right := 2147483647, bottom := 600 }
    ∧ IsValidWindow desktopWideRect 1 101 = false := by
  decide

/-! ## Persistence: `SaveWindowOrder` and `LoadWindowOrder` -/

theorem save_foldl (rt : CRuntime) (l : List WindowInfo) (acc : List Nat) :
    l.foldl (fun out w => out ++ saveLine rt w) acc = acc ++ saveBody rt l := by
  induction l generalizing acc with
  | nil => simp [saveBody]
  | cons w ws ih => rw [List.foldl_cons, ih, saveBody, List.append_assoc]

theorem SaveWindowOrder_of_nonempty (rt : CRuntime) (st : State) (file : Option (List Nat))
    (hne : st.g_windows ≠ []) (hopen : rt.fopen_w = true) :
    SaveWindowOrder rt st file
      = some (fmt_d st.g_windowCount ++ [10] ++ saveBody rt st.g_windows) := by
  have h1 : st.g_windows.isEmpty = false := by
    cases hl : st.g_windows with
    | nil => exact absurd hl hne
    | cons w ws => rfl
  have h2 : decide (st.g_windowCount = 0) = false := by
    rw [decide_eq_false_iff_not]
    unfold State.g_windowCount
    intro h
    exact hne (List.length_eq_zero.1 (by exact_mod_cast h))
  unfold SaveWindowOrder
  rw [h1, h2, hopen, save_foldl]
  rfl

theorem isdigit_iff (c : Nat) : isdigit c = true ↔ 48 ≤ c ∧ c ≤ 57 := by
  unfold isdigit
  rw [Bool.and_eq_true, decide_eq_true_eq, decide_eq_true_eq]

theorem isspace_of_isdigit (c : Nat) (h : isdigit c = true) : isspace c = false := by
  rw [isdigit_iff] at h
  unfold isspace
  rw [Bool.or_eq_false_iff, Bool.and_eq_false_iff]
  refine ⟨?_, Or.inr ?_⟩
  · rw [beq_eq_false_iff_ne]; omega
  · rw [decide_eq_false_iff_not]; omega

theorem decimalFuel_digits (fuel n c : Nat) (h : c ∈ decimalFuel fuel n) :
    isdigit c = true := by
  induction fuel generalizing n with
  | zero => simp [decimalFuel] at h
  | succ f ih =>
    rw [decimalFuel] at h
    by_cases hn : n < 10
    · rw [if_pos hn, List.mem_singleton] at h
      rw [isdigit_iff]; omega
    · rw [if_neg hn, List.mem_append, List.mem_singleton] at h
      rcases h with h | h
      · exact ih _ h
      · rw [isdigit_iff]; omega

theorem decimalFuel_ne_nil (fuel n : Nat) : decimalFuel (fuel + 1) n ≠ [] := by
  rw [decimalFuel]
  by_cases hn : n < 10
  · rw [if_pos hn]; simp
  · rw [if_neg hn]; simp

theorem scanDigits_digit (acc c : Nat) (cs : List Nat) (h : isdigit c = true) :
    scanDigits acc (c :: cs) = scanDigits (acc * 10 + (c - 48)) cs := by
  rw [scanDigits, if_pos h]

theorem scanDigits_stop (acc c : Nat) (cs : List Nat) (h : isdigit c = false) :
    scanDigits acc (c :: cs) = (acc, c :: cs) := by
  rw [scanDigits, h]
  rfl

theorem scanDigits_decimalFuel (fuel n : Nat) (rest : List Nat) (h : n < fuel) :
    scanDigits 0 (decimalFuel fuel n ++ rest) = scanDigits n rest := by
  induction fuel generalizing n rest with
  | zero => omega
  | succ f ih =>
    rw [decimalFuel]
    by_cases hn : n < 10
    · rw [if_pos hn, List.singleton_append,
        scanDigits_digit 0 _ _ (by rw [isdigit_iff]; omega)]
      congr 1
      omega
    · rw [if_neg hn, List.append_assoc, ih (n / 10) _ (by omega), List.singleton_append,
        scanDigits_digit _ _ _ (by rw [isdigit_iff]; omega)]
      congr 1
      omega

theorem scanSign_digit (c : Nat) (tail : List Nat) (hc : isdigit c = true) :
    scanSign (c :: tail) = (false, c :: tail) := by
  have hc' := (isdigit_iff c).1 hc
  unfold scanSign
  split
  · rename_i heq
    injection heq with h1 _
    omega
  · rename_i heq
    injection heq with h1 _
    omega
  · rfl

theorem fscanf_d_of_digit (c : Nat) (tail : List Nat) (hc : isdigit c = true) :
    fscanf_d (c :: tail)
      = some (((scanDigits 0 (c :: tail)).1 : Int),
          (scanDigits 0 (c :: tail)).2.dropWhile isspace) := by
  have hsp : ¬ (isspace c = true) := by
    rw [isspace_of_isdigit c hc]
    exact Bool.false_ne_true
  unfold fscanf_d
  rw [List.dropWhile_cons_of_neg hsp, scanSign_digit c tail hc]
  simp only [hc, if_true, Bool.false_eq_true, if_false]

theorem fscanf_d_fmt_d (N : Nat) (rest : List Nat) (hN : 0 < N) :
    fscanf_d (fmt_d (N : Int) ++ 10 :: rest) = some ((N : Int), rest.dropWhile isspace) := by
  have hfmt : fmt_d (N : Int) = decimalFuel (N + 1) N := by
    unfold fmt_d
    rw [if_neg (by omega)]
    rfl
  rw [hfmt]
  have hscan : scanDigits 0 (decimalFuel (N + 1) N ++ 10 :: rest) = (N, 10 :: rest) := by
    rw [scanDigits_decimalFuel (N + 1) N _ (by omega)]
    exact scanDigits_stop N 10 rest (by decide)
  cases hd : decimalFuel (N + 1) N with
  | nil => exact absurd hd (decimalFuel_ne_nil N N)
  | cons c cs =>
    have hc : isdigit c = true := decimalFuel_digits (N + 1) N c (by rw [hd]; simp)
    rw [hd] at hscan
    rw [List.cons_append] at hscan ⊢
    rw [fscanf_d_of_digit c _ hc, hscan]
    simp only
    rw [List.dropWhile_cons_of_pos (by decide)]

theorem fgetsLines_line (size : Nat) (pre cur rest : List Nat)
    (hpre : ∀ c ∈ pre, c ≠ 10) (hlen : (cur ++ pre).length + 2 ≤ size) :
    fgetsLines size cur (pre ++ 10 :: rest) = (cur ++ pre ++ [10]) :: fgetsLines size [] rest := by
  induction pre generalizing cur with
  | nil =>
    rw [List.nil_append, fgetsLines, if_pos (Or.inl rfl), List.append_nil]
  | cons c cs ih =>
    have hc : c ≠ 10 := hpre c (by simp)
    have hlen' : (cur ++ [c] ++ cs).length + 2 ≤ size := by
      simpa [List.length_append, Nat.add_assoc, Nat.add_comm, Nat.add_left_comm] using hlen
    have hno : ¬ (c = 10 ∨ (cur ++ [c]).length + 1 ≥ size) := by
      simp only [List.length_append, List.length_cons, List.length_nil] at hlen' ⊢
      omega
    rw [List.cons_append, fgetsLines, if_neg hno,
      ih (cur ++ [c]) (fun x hx => hpre x (by simp [hx])) hlen']
    simp

theorem saveLine_split (rt : CRuntime) (w : WindowInfo) :
    saveLine rt w = (rt.fmt_p w.hwnd ++ 124 :: rt.fmt_ls w.title) ++ [10] := by
  simp [saveLine]

theorem fgetsLines_saveBody (rt : CRuntime) (l : List WindowInfo)
    (hp : ∀ w ∈ l, Persistable rt w) :
    fgetsLines 512 [] (saveBody rt l) = l.map (saveLine rt) := by
  induction l with
  | nil => rfl
  | cons w ws ih =>
    obtain ⟨hptr, htitle, hlen, _, _⟩ := hp w (by simp)
    have hpre : ∀ c ∈ rt.fmt_p w.hwnd ++ 124 :: rt.fmt_ls w.title, c ≠ 10 := by
      intro c hc
      rw [List.mem_append, List.mem_cons] at hc
      rcases hc with hc | hc | hc
      · intro e
        have := (hptr c hc).2.2
        rw [e] at this
        exact absurd this (by decide)
      · omega
      · exact (htitle c hc).2
    have hl : ([] ++ (rt.fmt_p w.hwnd ++ 124 :: rt.fmt_ls w.title)).length + 2 ≤ 512 := by
      simp only [List.nil_append, List.length_append, List.length_cons]
      omega
    rw [saveBody, saveLine_split, List.append_assoc, List.singleton_append,
      fgetsLines_line 512 _ [] _ hpre hl, ih (fun x hx => hp x (by simp [hx]))]
    simp [saveLine]

theorem stripNewline_newline (title : WString) : stripNewline (title ++ [10]) = title := by
  unfold stripNewline
  simp

theorem loadLine_saveLine (d : Desktop) (rt : CRuntime) (g_mainHwnd : HWND) (savedCount : Int)
    (loc : LoadLocals) (w : WindowInfo) (hp : Persistable rt w)
    (hlive : d.IsWindow w.hwnd = true) (hvalid : IsValidWindow d g_mainHwnd w.hwnd = true)
    (hroom : (loc.savedWindows.length : Int) < savedCount) :
    loadLine d rt g_mainHwnd savedCount loc (saveLine rt w)
      = { savedWindows := loc.savedWindows ++ [reloaded d w], hwndPtr := w.hwnd,
          title := w.title } := by
  obtain ⟨hptr, htitle, _, hscan, hconv⟩ := hp
  have hnz : ∀ c ∈ saveLine rt w, (c != 0) = true := by
    intro c hc
    rw [saveLine_split, List.mem_append, List.mem_append, List.mem_cons, List.mem_singleton] at hc
    rw [bne_iff_ne]
    rcases hc with (hc | hc | hc) | hc
    · exact (hptr c hc).1
    · omega
    · exact (htitle c hc).1
    · omega
  have htext : (saveLine rt w).takeWhile (fun c => c != 0) = saveLine rt w :=
    List.takeWhile_eq_self_iff.2 hnz
  have hbar : ∀ c ∈ rt.fmt_p w.hwnd, (c != 124) = true := by
    intro c hc
    rw [bne_iff_ne]
    exact (hptr c hc).2.1
  have hshape : saveLine rt w = rt.fmt_p w.hwnd ++ 124 :: (rt.fmt_ls w.title ++ [10]) := by
    simp [saveLine]
  have hcontains : (saveLine rt w).contains 124 = true := by
    rw [List.contains_iff_exists_mem_beq]
    exact ⟨124, by rw [hshape]; simp, by simp⟩
  have htake : (saveLine rt w).takeWhile (fun c => c != 124) = rt.fmt_p w.hwnd := by
    rw [hshape, List.takeWhile_append_of_pos hbar, List.takeWhile_cons_of_neg (by simp)]
    simp
  have hdrop : ((saveLine rt w).dropWhile (fun c => c != 124)).tail
      = rt.fmt_ls w.title ++ [10] := by
    rw [hshape, List.dropWhile_append_of_pos hbar, List.dropWhile_cons_of_neg (by simp)]
    rfl
  unfold loadLine
  rw [if_neg (by simpa using hroom)]
  simp only [htext, hcontains, Bool.not_true, Bool.false_eq_true, if_false, htake, hdrop, hscan,
    hconv loc.title, hlive, hvalid, Bool.and_self, if_true]
  rfl

theorem foldl_loadLine_saved (d : Desktop) (rt : CRuntime) (g_mainHwnd : HWND)
    (savedCount : Int) (ws : List WindowInfo) (loc : LoadLocals)
    (hp : ∀ w ∈ ws, Persistable rt w)
    (hv : ∀ w ∈ ws, d.IsWindow w.hwnd = true ∧ IsValidWindow d g_mainHwnd w.hwnd = true)
    (hroom : ((loc.savedWindows.length + ws.length : Nat) : Int) ≤ savedCount) :
    ((ws.map (saveLine rt)).foldl (loadLine d rt g_mainHwnd savedCount) loc).savedWindows
      = loc.savedWindows ++ ws.map (reloaded d) := by
  induction ws generalizing loc with
  | nil => simp
  | cons w ws ih =>
    have hw := hv w (by simp)
    have hlt : (loc.savedWindows.length : Int) < savedCount := by
      simp only [List.length_cons] at hroom
      omega
    rw [List.map_cons, List.foldl_cons,
      loadLine_saveLine d rt g_mainHwnd savedCount loc w (hp w (by simp)) hw.1 hw.2 hlt,
      ih _ (fun x hx => hp x (by simp [hx]))
        (fun x hx => hv x (by simp [hx]))
        (by simp only [List.length_append, List.length_cons, List.length_nil] at hroom ⊢
            omega)]
    simp

theorem saveBody_dropWhile (rt : CRuntime) (l : List WindowInfo)
    (hp : ∀ w ∈ l, Persistable rt w) :
    (saveBody rt l).dropWhile isspace = saveBody rt l := by
  cases l with
  | nil => rfl
  | cons w ws =>
    obtain ⟨hptr, _, _, _, _⟩ := hp w (by simp)
    rw [saveBody]
    have hshape : saveLine rt w = rt.fmt_p w.hwnd ++ 124 :: (rt.fmt_ls w.title ++ [10]) := by
      simp [saveLine]
    rw [hshape]
    cases hf : rt.fmt_p w.hwnd with
    | nil =>
      rw [List.nil_append, List.cons_append,
        List.dropWhile_cons_of_neg (by decide)]
    | cons c cs =>
      have : isspace c = false := (hptr c (by rw [hf]; simp)).2.2
      rw [List.cons_append, List.cons_append, List.dropWhile_cons_of_neg (by simp [this])]

/-- C19, as the claim states it, fails: the list `[101]` is saved as the text
`1\n101|A\n`; at load time the window `101` still passes `IsWindow` but is
minimised (rectangle at `(-32000, -32000)`), so `IsValidWindow` refuses it and
nothing is loaded. With the same file and the window restored the entry is
loaded. -/
theorem Save_Load_counterexample :
    SaveWindowOrder rtDecimal (hiddenWith [winA]) none
        = some [49, 10, 49, 48, 49, 124, 65, 10]
    ∧ desktopMinimised.IsWindow 101 = true
    ∧ IsValidWindow desktopMinimised 1 101 = false
    ∧ (LoadWindowOrder desktopMinimised rtDecimal
          (SaveWindowOrder rtDecimal (hiddenWith [winA]) none) (startState 1)).g_windows = []
    ∧ handles (LoadWindowOrder desktopPlain rtDecimal
          (SaveWindowOrder rtDecimal (hiddenWith [winA]) none) (startState 1)).g_windows
        = [101] := by
  decide

/-- C19 (amended): when a non-empty list is saved (the file can be opened for
writing), every entry is written and read back faithfully by the C runtime, and
at load time every saved handle passes `IsWindow` and `IsValidWindow`, then
`LoadWindowOrder` on the saved file leaves a list of the same length with the
same handles and the same titles in the same order (each entry with its class
name read again), and sets `g_orderInitialized`. -/
theorem Save_Load_round_trip (d : Desktop) (rt : CRuntime) (st st0 : State)
    (file : Option (List Nat))
    (hne : st.g_windows ≠ []) (hopen : rt.fopen_w = true)
    (hp : ∀ w ∈ st.g_windows, Persistable rt w)
    (hv : ∀ w ∈ st.g_windows,
      d.IsWindow w.hwnd = true ∧ IsValidWindow d st0.g_mainHwnd w.hwnd = true) :
    (LoadWindowOrder d rt (SaveWindowOrder rt st file) st0).g_windows
        = st.g_windows.map (reloaded d)
    ∧ (LoadWindowOrder d rt (SaveWindowOrder rt st file) st0).g_windows.length
        = st.g_windows.length
    ∧ handles (LoadWindowOrder d rt (SaveWindowOrder rt st file) st0).g_windows
        = handles st.g_windows
    ∧ (LoadWindowOrder d rt (SaveWindowOrder rt st file) st0).g_windows.map (fun w => w.title)
        = st.g_windows.map (fun w => w.title)
    ∧ (LoadWindowOrder d rt (SaveWindowOrder rt st file) st0).g_orderInitialized = true := by
  have hpos : 0 < st.g_windows.length := List.length_pos.2 hne
  have hload : LoadWindowOrder d rt (SaveWindowOrder rt st file) st0
      = { st0 with g_windows := st.g_windows.map (reloaded d), g_orderInitialized := true } := by
    rw [SaveWindowOrder_of_nonempty rt st file hne hopen]
    have hcount : st.g_windowCount = ((st.g_windows.length : Nat) : Int) := rfl
    rw [hcount, List.append_assoc, List.singleton_append]
    unfold LoadWindowOrder
    simp only [fscanf_d_fmt_d st.g_windows.length _ hpos, saveBody_dropWhile rt _ hp]
    rw [if_neg (by omega), fgetsLines_saveBody rt _ hp,
      foldl_loadLine_saved d rt st0.g_mainHwnd _ st.g_windows _ hp hv (by simp)]
    simp only [List.nil_append, List.length_map]
    rw [if_pos hpos]
  rw [hload]
  refine ⟨rfl, by simp, ?_, ?_, rfl⟩
  · simp only [handles, List.map_map]
    rfl
  · simp only [List.map_map]
    rfl

theorem persistable_winA : Persistable rtDecimal winA :=
  ⟨by decide, by decide, by decide, by decide, fun _ => rfl⟩

theorem persistable_winB : Persistable rtDecimal winB :=
  ⟨by decide, by decide, by decide, by decide, fun _ => rfl⟩

theorem persistable_winA_winB (w : WindowInfo) (hw : w ∈ [winA, winB]) :
    Persistable rtDecimal w := by
  rcases List.mem_cons.1 hw with h | h
  · rw [h]
    exact persistable_winA
  · rw [List.mem_singleton.1 h]
    exact persistable_winB

/-- C19 (amended), at a concrete input: `[101, 102]` saved and loaded on a
desktop where both windows are live and valid gives the handles `[101, 102]`
and the saved titles. -/
theorem Save_Load_round_trip_witness :
    handles (LoadWindowOrder desktopPlain rtDecimal
        (SaveWindowOrder rtDecimal (hiddenWith [winA, winB]) none) (startState 1)).g_windows
      = handles (hiddenWith [winA, winB]).g_windows
    ∧ (LoadWindowOrder desktopPlain rtDecimal
        (SaveWindowOrder rtDecimal (hiddenWith [winA, winB]) none)
        (startState 1)).g_windows.map (fun w => w.title)
      = (hiddenWith [winA, winB]).g_windows.map (fun w => w.title) :=
  ⟨(Save_Load_round_trip desktopPlain rtDecimal (hiddenWith [winA, winB]) (startState 1) none
      (by decide) rfl persistable_winA_winB (by decide)).2.2.1,
   (Save_Load_round_trip desktopPlain rtDecimal (hiddenWith [winA, winB]) (startState 1) none
      (by decide) rfl persistable_winA_winB (by decide)).2.2.2.1⟩

/-- C20: `SaveWindowOrder` on an empty list leaves the file exactly as it was,
whatever its content (a saved order included) and whether or not it exists. -/
theorem SaveWindowOrder_empty (rt : CRuntime) (st : State) (file : Option (List Nat))
    (h : st.g_windows = []) : SaveWindowOrder rt st file = file := by
  unfold SaveWindowOrder
  rw [h]
  rfl

/-- C20, at a concrete input: an empty list saved over the file `1\n101|A\n`. -/
theorem SaveWindowOrder_empty_witness :
    SaveWindowOrder rtDecimal initialState (some [49, 10, 49, 48, 49, 124, 65, 10])
      = some [49, 10, 49, 48, 49, 124, 65, 10] :=
  SaveWindowOrder_empty rtDecimal initialState (some [49, 10, 49, 48, 49, 124, 65, 10]) rfl

/-! ## The flag and the list stay consistent along every run -/

theorem OrderConsistent_LoadWindowOrder (d : Desktop) (rt : CRuntime)
    (file : Option (List Nat)) (st : State) (hst : OrderConsistent st) :
    OrderConsistent (LoadWindowOrder d rt file st) := by
  unfold LoadWindowOrder
  split
  · exact hst
  · split
    · exact hst
    · simp only
      split_ifs
      · exact hst
      · intro hflag
        exact absurd hflag (by simp)
      · exact hst

theorem OrderConsistent_WindowProc (os : OS) (fg : HWND) (S : List WindowInfo) (hwnd : HWND)
    (uMsg : Msg) (st : State) (hst : OrderConsistent st) :
    OrderConsistent (WindowProc os fg S hwnd uMsg st).1 := by
  cases uMsg with
  | WM_HOTKEY wParam =>
    unfold WindowProc
    simp only
    split_ifs
    · unfold ShowTabsOverlay
      simp only
      split_ifs
      · exact OrderConsistent_UpdateWindowList os S _
      · exact OrderConsistent_UpdateWindowList os S _
    · exact hst
    · exact hst
  | WM_KEYDOWN wParam ctrl => exact OrderConsistent_WM_KEYDOWN os hwnd wParam ctrl st hst
  | WM_ACTIVATE wParam =>
    unfold WindowProc
    simp only
    split_ifs
    · exact hst
    · exact hst

theorem OrderConsistent_of_Reachable (st : State) (h : Reachable st) : OrderConsistent st := by
  induction h with
  | start d rt file g_mainHwnd =>
    exact OrderConsistent_LoadWindowOrder d rt file _ (fun _ => rfl)
  | step os fg S hwnd uMsg st _ ih => exact OrderConsistent_WindowProc os fg S hwnd uMsg st ih

/-! ## Every accepted window is top-level -/

theorem styleAndSizeRules_topLevel (d : Desktop) (hwnd : HWND) (style : Nat)
    (h : styleAndSizeRules d hwnd style = true) : TopLevel d hwnd := by
  rw [← topLevel_test]
  unfold styleAndSizeRules at h
  simp only at h
  split_ifs at h with h1 h2
  cases hp : (d.GetParent hwnd != 0 && d.GetParent hwnd != d.GetDesktopWindow)
  · rfl
  · exact absurd hp h2

/-- C23: for every desktop and every window, if `IsValidWindow` returns `TRUE`
then the window has no parent or its parent is the desktop root; this holds
when the value comes from the allow-list block (lines 315-320) and when it
comes from the rules after it (line 378). -/
theorem IsValidWindow_topLevel (d : Desktop) (g_mainHwnd hwnd : HWND)
    (h : IsValidWindow d g_mainHwnd hwnd = true) : TopLevel d hwnd := by
  unfold IsValidWindow at h
  simp only at h
  split_ifs at h with h1 h2 h3 h4 h5 h6 h7 h8
  · rw [← topLevel_test]
    cases hp : (d.GetParent hwnd != 0 && d.GetParent hwnd != d.GetDesktopWindow)
    · rfl
    · exact absurd hp h6
  · exact styleAndSizeRules_topLevel d hwnd _ h

/-- C23, at two concrete inputs: the window accepted through the allow list
(`desktopNotepad`) and the window accepted by the rules after it
(`desktopPlain`) are both top-level. -/
theorem IsValidWindow_topLevel_witness :
    (allowedTitles.any (fun p => wcsstr (desktopNotepad.GetWindowTextW 101) p) = true
      ∧ TopLevel desktopNotepad 101)
    ∧ (allowedTitles.any (fun p => wcsstr (desktopPlain.GetWindowTextW 101) p) = false
      ∧ TopLevel desktopPlain 101) :=
  ⟨⟨by decide, IsValidWindow_topLevel desktopNotepad 1 101 (by decide)⟩,
   ⟨by decide, IsValidWindow_topLevel desktopPlain 1 101 (by decide)⟩⟩

/-! ## Reconciliation against an unchanged desktop -/

theorem UpdateWindowList_merge_state (os : OS) (S : List WindowInfo) (st : State)
    (hf : firstRun st = false) :
    UpdateWindowList os S st
      = { st with g_windows :=
            carryOver os S st.g_windows ++ newTail (carryOver os S st.g_windows) S } := by
  unfold firstRun at hf
  simp [UpdateWindowList, hf, appendNew_eq]

theorem orderInitialized_of_not_firstRun (st : State) (hf : firstRun st = false) :
    st.g_orderInitialized = true := by
  unfold firstRun at hf
  cases hi : st.g_orderInitialized
  · rw [hi] at hf
    simp at hf
  · rfl

theorem carryOver_fixed (os : OS) (S R : List WindowInfo)
    (h : ∀ w ∈ R, w.hwnd ∈ handles S ∧ os.IsWindow w.hwnd = true
      ∧ os.GetWindowTextW w.hwnd = w.title) :
    carryOver os S R = R := by
  rw [carryOver_eq]
  have hfil : R.filter (fun w => stillExists S w.hwnd && os.IsWindow w.hwnd) = R := by
    rw [List.filter_eq_self]
    intro w hw
    obtain ⟨h1, h2, _⟩ := h w hw
    rw [Bool.and_eq_true]
    exact ⟨(stillExists_iff S w.hwnd).2 h1, h2⟩
  rw [hfil]
  have hmap : ∀ w ∈ R, ({ w with title := os.GetWindowTextW w.hwnd } : WindowInfo) = id w := by
    intro w hw
    rw [(h w hw).2.2]
    rfl
  rw [List.map_congr_left hmap, List.map_id]

theorem newTail_eq_nil (N S : List WindowInfo) (h : ∀ x ∈ handles S, x ∈ handles N) :
    newTail N S = [] := by
  rw [List.eq_nil_iff_forall_not_mem]
  intro w hw
  have hm : w.hwnd ∈ handles (newTail N S) := List.mem_map.2 ⟨w, hw, rfl⟩
  obtain ⟨h1, h2⟩ := (mem_newTail N S w.hwnd).1 hm
  exact h2 (h w.hwnd h1)

theorem mem_carryOver_props (os : OS) (S L : List WindowInfo) (w : WindowInfo)
    (hw : w ∈ carryOver os S L) :
    w.hwnd ∈ handles S ∧ os.IsWindow w.hwnd = true ∧ os.GetWindowTextW w.hwnd = w.title := by
  rw [carryOver_eq, List.mem_map] at hw
  obtain ⟨w0, hw0, rfl⟩ := hw
  rw [List.mem_filter, Bool.and_eq_true] at hw0
  exact ⟨(stillExists_iff S w0.hwnd).1 hw0.2.1, hw0.2.2, rfl⟩

theorem firstRun_of_nil (st : State) (h : st.g_windows = []) : firstRun st = true := by
  unfold firstRun
  rw [h]
  simp

theorem firstRun_initialized_cons (st : State) (w : WindowInfo) (ws : List WindowInfo)
    (hi : st.g_orderInitialized = true) (h : st.g_windows = w :: ws) : firstRun st = false := by
  unfold firstRun
  rw [hi, h]
  rfl

theorem UpdateWindowList_fixed (os : OS) (S : List WindowInfo) (st : State)
    (hinit : st.g_orderInitialized = true)
    (hfix : ∀ w ∈ st.g_windows, w.hwnd ∈ handles S ∧ os.IsWindow w.hwnd = true
      ∧ os.GetWindowTextW w.hwnd = w.title)
    (hcover : ∀ x ∈ handles S, x ∈ handles st.g_windows) :
    UpdateWindowList os S st = st := by
  cases hl : st.g_windows with
  | nil =>
    have hSnil : S = [] := by
      rw [List.eq_nil_iff_forall_not_mem]
      intro w hw
      have := hcover w.hwnd (List.mem_map.2 ⟨w, hw, rfl⟩)
      rw [hl] at this
      simp [handles] at this
    rw [UpdateWindowList_firstRun os S st (firstRun_of_nil st hl), hSnil, ← hl, ← hinit]
  | cons r rs =>
    rw [UpdateWindowList_merge_state os S st (firstRun_initialized_cons st r rs hinit hl),
      carryOver_fixed os S _ hfix, newTail_eq_nil _ S hcover, List.append_nil]

/-- C24: for every previous list and every snapshot `S` whose handles all pass
`IsWindow` and whose titles are the ones `GetWindowTextW` returns (the desktop
does not change), a second reconciliation pass against `S` changes nothing:
`UpdateWindowList` applied to the state left by `UpdateWindowList` gives that
state again, hence the same entries in the same order. -/
theorem UpdateWindowList_idempotent (os : OS) (S : List WindowInfo) (st : State)
    (hlive : ∀ w ∈ S, os.IsWindow w.hwnd = true)
    (htitle : ∀ w ∈ S, os.GetWindowTextW w.hwnd = w.title) :
    UpdateWindowList os S (UpdateWindowList os S st) = UpdateWindowList os S st
    ∧ (UpdateWindowList os S (UpdateWindowList os S st)).g_windows
        = (UpdateWindowList os S st).g_windows := by
  have hS : ∀ w ∈ S, w.hwnd ∈ handles S ∧ os.IsWindow w.hwnd = true
      ∧ os.GetWindowTextW w.hwnd = w.title :=
    fun w hw => ⟨List.mem_map.2 ⟨w, hw, rfl⟩, hlive w hw, htitle w hw⟩
  have key : UpdateWindowList os S (UpdateWindowList os S st) = UpdateWindowList os S st := by
    cases hf : firstRun st
    · -- the first pass merges
      have hinit := orderInitialized_of_not_firstRun st hf
      rw [UpdateWindowList_merge_state os S st hf]
      refine UpdateWindowList_fixed os S
        { st with g_windows :=
            carryOver os S st.g_windows ++ newTail (carryOver os S st.g_windows) S }
        hinit ?_ ?_
      · intro w hw
        simp only at hw
        rw [List.mem_append] at hw
        rcases hw with hw | hw
        · exact mem_carryOver_props os S st.g_windows w hw
        · exact hS w ((newTail_sublist _ S).subset hw)
      · intro x hx
        simp only
        rw [← appendNew_eq, mem_handles_appendNew]
        exact Or.inr hx
    · -- the first pass takes the snapshot as it is
      rw [UpdateWindowList_firstRun os S st hf]
      exact UpdateWindowList_fixed os S { st with g_windows := S, g_orderInitialized := true }
        rfl hS (fun x hx => hx)
  exact ⟨key, by rw [key]⟩

/-- C24, at a concrete input: on the desktop where every window is live and has
the title `GetWindowTextW` returns, the list `[101, 102]` reconciled twice
against the snapshot `[103, 101]` is the list reconciled once. -/
theorem UpdateWindowList_idempotent_witness :
    (UpdateWindowList osAllLive [⟨103, [103], [88]⟩, ⟨101, [101], [88]⟩]
      (UpdateWindowList osAllLive [⟨103, [103], [88]⟩, ⟨101, [101], [88]⟩]
        (hiddenWith [winA, winB]))).g_windows
      = (UpdateWindowList osAllLive [⟨103, [103], [88]⟩, ⟨101, [101], [88]⟩]
        (hiddenWith [winA, winB])).g_windows :=
  (UpdateWindowList_idempotent osAllLive [⟨103, [103], [88]⟩, ⟨101, [101], [88]⟩]
    (hiddenWith [winA, winB]) (by decide) (by decide)).2

/-! ## `LoadWindowOrder` on well-formed and on malformed files -/

theorem fgetsLines_entriesBody (es : List EntryText) (hwf : ∀ e ∈ es, WellFormedEntry e) :
    fgetsLines 512 [] (entriesBody es) = es.map entryLine := by
  induction es with
  | nil => rfl
  | cons e es ih =>
    obtain ⟨hptr, htitle, hlen⟩ := hwf e (by simp)
    have hpre : ∀ c ∈ e.1 ++ 124 :: e.2, c ≠ 10 := by
      intro c hc
      rw [List.mem_append, List.mem_cons] at hc
      rcases hc with hc | hc | hc
      · intro h10
        have := (hptr c hc).2.2
        rw [h10] at this
        exact absurd this (by decide)
      · omega
      · exact (htitle c hc).2
    have hl : ([] ++ (e.1 ++ 124 :: e.2)).length + 2 ≤ 512 := by
      simp only [List.nil_append, List.length_append, List.length_cons]
      omega
    have hshape : entryLine e = (e.1 ++ 124 :: e.2) ++ [10] := by simp [entryLine]
    rw [entriesBody, hshape, List.append_assoc, List.singleton_append,
      fgetsLines_line 512 _ [] _ hpre hl, ih (fun x hx => hwf x (by simp [hx]))]
    simp [entryLine]

theorem loadLine_entryLine (d : Desktop) (rt : CRuntime) (g_mainHwnd : HWND) (savedCount : Int)
    (loc : LoadLocals) (e : FileEntry) (hwf : WellFormedFileEntry rt e)
    (hroom : (loc.savedWindows.length : Int) < savedCount) :
    loadLine d rt g_mainHwnd savedCount loc (entryLine e.text)
      = { savedWindows :=
            if entryStillValid d g_mainHwnd e then loc.savedWindows ++ [entryLoaded d e]
            else loc.savedWindows
          hwndPtr := e.hwnd
          title := e.title } := by
  obtain ⟨⟨hptr, htitle, _⟩, hscan, hconv⟩ := hwf
  have hshape : entryLine e.text = e.text.1 ++ 124 :: (e.text.2 ++ [10]) := by
    simp [entryLine]
  have hnz : ∀ c ∈ entryLine e.text, (c != 0) = true := by
    intro c hc
    rw [hshape, List.mem_append, List.mem_cons, List.mem_append, List.mem_singleton] at hc
    rw [bne_iff_ne]
    rcases hc with hc | hc | hc | hc
    · exact (hptr c hc).1
    · omega
    · exact (htitle c hc).1
    · omega
  have htext : (entryLine e.text).takeWhile (fun c => c != 0) = entryLine e.text :=
    List.takeWhile_eq_self_iff.2 hnz
  have hbar : ∀ c ∈ e.text.1, (c != 124) = true := by
    intro c hc
    rw [bne_iff_ne]
    exact (hptr c hc).2.1
  have hcontains : (entryLine e.text).contains 124 = true := by
    rw [List.contains_iff_exists_mem_beq]
    exact ⟨124, by rw [hshape]; simp, by simp⟩
  have htake : (entryLine e.text).takeWhile (fun c => c != 124) = e.text.1 := by
    rw [hshape, List.takeWhile_append_of_pos hbar, List.takeWhile_cons_of_neg (by simp)]
    simp
  have hdrop : ((entryLine e.text).dropWhile (fun c => c != 124)).tail = e.text.2 ++ [10] := by
    rw [hshape, List.dropWhile_append_of_pos hbar, List.dropWhile_cons_of_neg (by simp)]
    rfl
  unfold loadLine
  rw [if_neg (by simpa using hroom)]
  simp only [htext, hcontains, Bool.not_true, Bool.false_eq_true, if_false, htake, hdrop, hscan,
    hconv loc.title, stripNewline_newline]
  unfold entryStillValid entryLoaded
  cases (d.IsWindow e.hwnd && IsValidWindow d g_mainHwnd e.hwnd) <;> rfl

theorem foldl_loadLine_entries (d : Desktop) (rt : CRuntime) (g_mainHwnd : HWND)
    (savedCount : Int) (es : List FileEntry) (loc : LoadLocals)
    (hwf : ∀ e ∈ es, WellFormedFileEntry rt e)
    (hroom : ((loc.savedWindows.length + es.length : Nat) : Int) ≤ savedCount) :
    (((es.map (fun e => e.text)).map entryLine).foldl
        (loadLine d rt g_mainHwnd savedCount) loc).savedWindows
      = loc.savedWindows ++ (es.filter (entryStillValid d g_mainHwnd)).map (entryLoaded d) := by
  induction es generalizing loc with
  | nil => simp
  | cons e es ih =>
    have hlt : (loc.savedWindows.length : Int) < savedCount := by
      simp only [List.length_cons] at hroom
      omega
    have hwf' : ∀ x ∈ es, WellFormedFileEntry rt x := fun x hx => hwf x (by simp [hx])
    rw [List.map_cons, List.map_cons, List.foldl_cons,
      loadLine_entryLine d rt g_mainHwnd savedCount loc e (hwf e (by simp)) hlt]
    cases hv : entryStillValid d g_mainHwnd e
    · rw [List.filter_cons_of_neg (by simp [hv])]
      simp only [Bool.false_eq_true, if_false]
      refine ih _ hwf' ?_
      show ((loc.savedWindows.length + es.length : Nat) : Int) ≤ savedCount
      simp only [List.length_cons] at hroom
      omega
    · rw [List.filter_cons_of_pos (by simp [hv])]
      simp only [if_true]
      rw [ih _ hwf'
        (by simp only [List.length_append, List.length_cons, List.length_nil] at hroom ⊢
            omega)]
      simp

theorem entriesBody_dropWhile (es : List EntryText) (hwf : ∀ e ∈ es, WellFormedEntry e) :
    (entriesBody es).dropWhile isspace = entriesBody es := by
  cases es with
  | nil => rfl
  | cons e es =>
    obtain ⟨hptr, _, _⟩ := hwf e (by simp)
    have hshape : entryLine e = e.1 ++ 124 :: (e.2 ++ [10]) := by simp [entryLine]
    rw [entriesBody, hshape]
    cases hf : e.1 with
    | nil =>
      rw [List.nil_append, List.cons_append, List.dropWhile_cons_of_neg (by decide)]
    | cons c cs =>
      have : isspace c = false := (hptr c (by rw [hf]; simp)).2.2
      rw [List.cons_append, List.cons_append, List.dropWhile_cons_of_neg (by simp [this])]

theorem LoadWindowOrder_entriesText (d : Desktop) (rt : CRuntime) (st : State)
    (es : List FileEntry) (hne : es ≠ []) (hwf : ∀ e ∈ es, WellFormedFileEntry rt e) :
    LoadWindowOrder d rt (some (entriesText es)) st
      = if ((es.filter (entryStillValid d st.g_mainHwnd)).map (entryLoaded d)).length > 0
        then
          { st with
            g_windows := (es.filter (entryStillValid d st.g_mainHwnd)).map (entryLoaded d)
            g_orderInitialized := true }
        else st := by
  have hpos : 0 < (es.map (fun e => e.text)).length := by
    rw [List.length_map]
    exact List.length_pos.2 hne
  have hwt : ∀ t ∈ es.map (fun e => e.text), WellFormedEntry t := by
    intro t ht
    rw [List.mem_map] at ht
    obtain ⟨e, he, rfl⟩ := ht
    exact (hwf e he).1
  unfold entriesText fileText
  rw [List.append_assoc, List.singleton_append]
  unfold LoadWindowOrder
  simp only [fscanf_d_fmt_d (es.map (fun e => e.text)).length _ hpos,
    entriesBody_dropWhile _ hwt]
  rw [if_neg (by omega), fgetsLines_entriesBody _ hwt,
    foldl_loadLine_entries d rt st.g_mainHwnd _ es _ hwf (by simp)]
  simp only [List.nil_append]

/-- C21: for every well-formed file with the count `n > 0` and `n` entry lines
(each line a pointer text that `%p` reads as a handle, `|`, and a title text
that converts to a title), `LoadWindowOrder` leaves in `g_windows` exactly the
entries of the file whose handle passes `IsWindow` and `IsValidWindow`, in file
order, each with the handle and the title of its line and the class name of its
window, and sets `g_orderInitialized`; the length of that list is the number of
still-valid entries, every loaded handle is live and valid, and no entry whose
handle is not live is loaded. When no entry is valid the state is left as it
was: from the start the list stays empty and uninitialized. -/
theorem LoadWindowOrder_wellFormed (d : Desktop) (rt : CRuntime) (st : State)
    (es : List FileEntry) (hne : es ≠ []) (hwf : ∀ e ∈ es, WellFormedFileEntry rt e) :
    (es.filter (entryStillValid d st.g_mainHwnd) ≠ [] →
        (LoadWindowOrder d rt (some (entriesText es)) st).g_windows
            = (es.filter (entryStillValid d st.g_mainHwnd)).map (entryLoaded d)
        ∧ (LoadWindowOrder d rt (some (entriesText es)) st).g_orderInitialized = true
        ∧ (LoadWindowOrder d rt (some (entriesText es)) st).g_windows.length
            = es.countP (entryStillValid d st.g_mainHwnd))
    ∧ (es.filter (entryStillValid d st.g_mainHwnd) = [] →
        LoadWindowOrder d rt (some (entriesText es)) st = st)
    ∧ (∀ w ∈ (es.filter (entryStillValid d st.g_mainHwnd)).map (entryLoaded d),
        d.IsWindow w.hwnd = true ∧ IsValidWindow d st.g_mainHwnd w.hwnd = true)
    ∧ (∀ e ∈ es, d.IsWindow e.hwnd = false →
        e.hwnd ∉ handles ((es.filter (entryStillValid d st.g_mainHwnd)).map (entryLoaded d)))
    ∧ (∀ g_mainHwnd, (∀ e ∈ es, entryStillValid d g_mainHwnd e = false) →
        (LoadWindowOrder d rt (some (entriesText es)) (startState g_mainHwnd)).g_windows = []
        ∧ (LoadWindowOrder d rt (some (entriesText es))
            (startState g_mainHwnd)).g_orderInitialized = false) := by
  have hvalid : ∀ w ∈ (es.filter (entryStillValid d st.g_mainHwnd)).map (entryLoaded d),
      d.IsWindow w.hwnd = true ∧ IsValidWindow d st.g_mainHwnd w.hwnd = true := by
    intro w hw
    rw [List.mem_map] at hw
    obtain ⟨e, he, rfl⟩ := hw
    have := (List.mem_filter.1 he).2
    unfold entryStillValid at this
    rw [Bool.and_eq_true] at this
    exact this
  refine ⟨?_, ?_, hvalid, ?_, ?_⟩
  · intro hsome
    have hlen : ((es.filter (entryStillValid d st.g_mainHwnd)).map
        (entryLoaded d)).length > 0 := by
      rw [List.length_map]
      exact List.length_pos.2 hsome
    rw [LoadWindowOrder_entriesText d rt st es hne hwf, if_pos hlen]
    refine ⟨rfl, rfl, ?_⟩
    simp only [List.length_map]
    rw [List.countP_eq_length_filter]
  · intro hnone
    rw [LoadWindowOrder_entriesText d rt st es hne hwf, hnone]
    rfl
  · intro e _ hdead hmem
    unfold handles at hmem
    rw [List.mem_map] at hmem
    obtain ⟨w, hw, hwe⟩ := hmem
    have hlive := (hvalid w hw).1
    rw [hwe, hdead] at hlive
    exact Bool.false_ne_true hlive
  · intro g hall
    have hnone : es.filter (entryStillValid d (startState g).g_mainHwnd) = [] := by
      rw [List.filter_eq_nil_iff]
      intro e he
      have := hall e he
      simp only [startState] at this ⊢
      rw [this]
      exact Bool.false_ne_true
    rw [LoadWindowOrder_entriesText d rt (startState g) es hne hwf, hnone]
    exact ⟨rfl, rfl⟩

theorem wellFormed_threeEntries (e : FileEntry) (he : e ∈ threeEntries) :
    WellFormedFileEntry rtDecimal e := by
  simp only [threeEntries, List.mem_cons, List.mem_singleton, List.not_mem_nil, or_false] at he
  rcases he with rfl | rfl | rfl <;> exact ⟨by decide, by decide, fun _ => rfl⟩

/-- C21, at a concrete input: the file `3\n101|A\n102|B\n103|C\n` loaded when
the window `102` is gone gives the two entries `101` and `103`, in that order,
with the titles `A` and `C`. -/
theorem LoadWindowOrder_wellFormed_witness :
    entriesText threeEntries
        = [51, 10, 49, 48, 49, 124, 65, 10, 49, 48, 50, 124, 66, 10, 49, 48, 51, 124, 67, 10]
    ∧ (threeEntries.filter (entryStillValid desktopStale102 (startState 1).g_mainHwnd)).map
          (entryLoaded desktopStale102)
        = [{ hwnd := 101, title := [65], className := wide "AppWindow" },
           { hwnd := 103, title := [67], className := wide "AppWindow" }]
    ∧ (LoadWindowOrder desktopStale102 rtDecimal (some (entriesText threeEntries))
        (startState 1)).g_windows
      = (threeEntries.filter (entryStillValid desktopStale102
          (startState 1).g_mainHwnd)).map (entryLoaded desktopStale102) :=
  ⟨by decide, by decide,
   ((LoadWindowOrder_wellFormed desktopStale102 rtDecimal (startState 1) threeEntries
      (by decide) wellFormed_threeEntries).1 (by decide)).1⟩

/-- A line whose pointer text `sscanf` cannot read is loaded with the handle
the round before left in `hwndPtr`: from the file `2\n101|A\nzz|B\n` the loop
loads the handle `101` twice, with the titles `A` and `B`. -/
theorem LoadWindowOrder_unreadable_pointer :
    rtDecimal.scan_p [122, 122] = none
    ∧ (LoadWindowOrder desktopPlain rtDecimal
        (some [50, 10, 49, 48, 49, 124, 65, 10, 122, 122, 124, 66, 10])
        (startState 1)).g_windows
      = [{ hwnd := 101, title := [65], className := wide "AppWindow" },
         { hwnd := 101, title := [66], className := wide "AppWindow" }] := by
  decide

theorem scanSign_subset (s : List Nat) (c : Nat) (h : c ∈ (scanSign s).2) : c ∈ s := by
  unfold scanSign at h
  split at h
  · exact List.mem_cons_of_mem _ h
  · exact List.mem_cons_of_mem _ h
  · exact h

theorem scanDigits_subset (acc : Nat) (s : List Nat) (c : Nat)
    (h : c ∈ (scanDigits acc s).2) : c ∈ s := by
  induction s generalizing acc with
  | nil => simp [scanDigits] at h
  | cons x xs ih =>
    rw [scanDigits] at h
    split_ifs at h
    · exact List.mem_cons_of_mem _ (ih _ h)
    · exact h

theorem fscanf_d_rest_subset (content : List Nat) (n : Int) (rest : List Nat)
    (h : fscanf_d content = some (n, rest)) (c : Nat) (hc : c ∈ rest) : c ∈ content := by
  unfold fscanf_d at h
  simp only at h
  split at h
  · exact absurd h (by simp)
  · split_ifs at h
    all_goals
      simp only [Option.some.injEq, Prod.mk.injEq] at h
      rw [← h.2] at hc
      exact (List.dropWhile_sublist isspace).subset
        (scanSign_subset _ c
          (scanDigits_subset 0 _ c ((List.dropWhile_sublist isspace).subset hc)))

theorem fgetsLines_mem (size : Nat) (cur input line : List Nat)
    (h : line ∈ fgetsLines size cur input) (c : Nat) (hc : c ∈ line) :
    c ∈ cur ∨ c ∈ input := by
  induction input generalizing cur with
  | nil =>
    rw [fgetsLines] at h
    split_ifs at h
    · simp at h
    · rw [List.mem_singleton] at h
      rw [h] at hc
      exact Or.inl hc
  | cons x xs ih =>
    rw [fgetsLines] at h
    split_ifs at h
    · rw [List.mem_cons] at h
      rcases h with h | h
      · rw [h, List.mem_append, List.mem_singleton] at hc
        rcases hc with hc | hc
        · exact Or.inl hc
        · exact Or.inr (by rw [hc]; simp)
      · rcases ih [] h with h' | h'
        · simp at h'
        · exact Or.inr (List.mem_cons_of_mem _ h')
    · rcases ih (cur ++ [x]) h with h' | h'
      · rw [List.mem_append, List.mem_singleton] at h'
        rcases h' with h' | h'
        · exact Or.inl h'
        · exact Or.inr (by rw [h']; simp)
      · exact Or.inr (List.mem_cons_of_mem _ h')

theorem loadLine_of_no_bar (d : Desktop) (rt : CRuntime) (g_mainHwnd : HWND) (savedCount : Int)
    (loc : LoadLocals) (line : List Nat) (h : 124 ∉ line) :
    loadLine d rt g_mainHwnd savedCount loc line = loc := by
  have hno : (line.takeWhile (fun c => c != 0)).contains 124 = false := by
    rw [← Bool.not_eq_true, List.contains_iff_exists_mem_beq]
    rintro ⟨x, hx, hb⟩
    have hx' : x ∈ line := (List.takeWhile_sublist _).subset hx
    have : 124 = x := by simpa using hb
    rw [← this] at hx'
    exact h hx'
  unfold loadLine
  simp only [hno, Bool.not_false, if_true]
  split_ifs <;> rfl

theorem foldl_loadLine_no_bar (d : Desktop) (rt : CRuntime) (g_mainHwnd : HWND)
    (savedCount : Int) (lines : List (List Nat)) (loc : LoadLocals)
    (h : ∀ line ∈ lines, 124 ∉ line) :
    lines.foldl (loadLine d rt g_mainHwnd savedCount) loc = loc := by
  induction lines generalizing loc with
  | nil => rfl
  | cons l ls ih =>
    rw [List.foldl_cons, loadLine_of_no_bar d rt g_mainHwnd savedCount loc l (h l (by simp)),
      ih loc (fun x hx => h x (by simp [hx]))]

theorem LoadWindowOrder_unchanged (d : Desktop) (rt : CRuntime) (file : Option (List Nat))
    (st : State)
    (h : file = none
      ∨ (∃ content, file = some content
          ∧ ∀ n rest, fscanf_d content = some (n, rest) → n ≤ 0)
      ∨ (∃ content, file = some content ∧ 124 ∉ content)) :
    LoadWindowOrder d rt file st = st := by
  rcases h with h | ⟨content, hfile, hcount⟩ | ⟨content, hfile, hbar⟩
  · rw [h]
    rfl
  · rw [hfile]
    unfold LoadWindowOrder
    simp only
    cases hs : fscanf_d content with
    | none => rfl
    | some p =>
      obtain ⟨n, rest⟩ := p
      simp only
      rw [if_pos (hcount n rest hs)]
  · rw [hfile]
    unfold LoadWindowOrder
    simp only
    cases hs : fscanf_d content with
    | none => rfl
    | some p =>
      obtain ⟨n, rest⟩ := p
      simp only
      have hlines : ∀ line ∈ fgetsLines 512 [] rest, 124 ∉ line := by
        intro line hl hmem
        rcases fgetsLines_mem 512 [] rest line hl 124 hmem with h' | h'
        · simp at h'
        · exact hbar (fscanf_d_rest_subset content n rest hs 124 h')
      rw [foldl_loadLine_no_bar d rt st.g_mainHwnd n _ _ hlines]
      split_ifs <;> first | rfl | (rename_i hlen; simp at hlen)

/-- C22, as the claim states it, fails. The file `2\nfoo\n101|A\n` has an entry
line without `|`, and the file `1x\n101|A\n` has a first line that is not a
positive integer; from both `LoadWindowOrder` loads the entry `101` and sets
`g_orderInitialized`: the line without `|` is skipped on its own, and `%d`
reads the count `1` from `1x`. -/
theorem LoadWindowOrder_malformed_counterexample :
    (handles (LoadWindowOrder desktopPlain rtDecimal
        (some [50, 10, 102, 111, 111, 10, 49, 48, 49, 124, 65, 10])
        (startState 1)).g_windows = [101]
      ∧ (LoadWindowOrder desktopPlain rtDecimal
        (some [50, 10, 102, 111, 111, 10, 49, 48, 49, 124, 65, 10])
        (startState 1)).g_orderInitialized = true)
    ∧ (handles (LoadWindowOrder desktopPlain rtDecimal
        (some [49, 120, 10, 49, 48, 49, 124, 65, 10])
        (startState 1)).g_windows = [101]
      ∧ (LoadWindowOrder desktopPlain rtDecimal
        (some [49, 120, 10, 49, 48, 49, 124, 65, 10])
        (startState 1)).g_orderInitialized = true) := by
  decide

/-- C22 (amended): when the file is missing, or no positive count can be read
at its start (`fscanf` with `%d` reads no integer, or one that is not positive),
or the file holds no `|` at all, `LoadWindowOrder` leaves the state as it was.
From the start the list then stays empty and `g_orderInitialized` stays false,
so the next `UpdateWindowList` takes its first-run branch and leaves exactly
the snapshot. -/
theorem LoadWindowOrder_malformed (d : Desktop) (rt : CRuntime) (file : Option (List Nat))
    (st : State) (g_mainHwnd : HWND)
    (h : file = none
      ∨ (∃ content, file = some content
          ∧ ∀ n rest, fscanf_d content = some (n, rest) → n ≤ 0)
      ∨ (∃ content, file = some content ∧ 124 ∉ content)) :
    LoadWindowOrder d rt file st = st
    ∧ (LoadWindowOrder d rt file (startState g_mainHwnd)).g_windows = []
    ∧ (LoadWindowOrder d rt file (startState g_mainHwnd)).g_orderInitialized = false
    ∧ (∀ (os : OS) (S : List WindowInfo),
        (UpdateWindowList os S (LoadWindowOrder d rt file (startState g_mainHwnd))).g_windows
          = S) := by
  rw [LoadWindowOrder_unchanged d rt file st h,
    LoadWindowOrder_unchanged d rt file (startState g_mainHwnd) h]
  refine ⟨rfl, rfl, rfl, ?_⟩
  intro os S
  rw [UpdateWindowList_firstRun os S (startState g_mainHwnd) rfl]

/-- C22 (amended), at concrete inputs: no file, the file `abc\n101|A\n` (no
count), the file `0\n101|A\n` (count zero) and the file `2\nfoo\nbar\n` (no `|`)
all leave the start state as it is. -/
theorem LoadWindowOrder_malformed_witness :
    LoadWindowOrder desktopPlain rtDecimal none (startState 1) = startState 1
    ∧ LoadWindowOrder desktopPlain rtDecimal
        (some [97, 98, 99, 10, 49, 48, 49, 124, 65, 10]) (startState 1) = startState 1
    ∧ LoadWindowOrder desktopPlain rtDecimal
        (some [48, 10, 49, 48, 49, 124, 65, 10]) (startState 1) = startState 1
    ∧ LoadWindowOrder desktopPlain rtDecimal
        (some [50, 10, 102, 111, 111, 10, 98, 97, 114, 10]) (startState 1) = startState 1 :=
  ⟨(LoadWindowOrder_malformed desktopPlain rtDecimal none (startState 1) 1 (Or.inl rfl)).1,
   (LoadWindowOrder_malformed desktopPlain rtDecimal _ (startState 1) 1
      (Or.inr (Or.inl ⟨_, rfl, by
        intro n rest h
        have e : fscanf_d [97, 98, 99, 10, 49, 48, 49, 124, 65, 10] = none := by decide
        rw [e] at h
        exact absurd h (by simp)⟩))).1,
   (LoadWindowOrder_malformed desktopPlain rtDecimal _ (startState 1) 1
      (Or.inr (Or.inl ⟨_, rfl, by
        intro n rest h
        have e : fscanf_d [48, 10, 49, 48, 49, 124, 65, 10]
            = some (0, [49, 48, 49, 124, 65, 10]) := by decide
        rw [e] at h
        simp only [Option.some.injEq, Prod.mk.injEq] at h
        omega⟩))).1,
   (LoadWindowOrder_malformed desktopPlain rtDecimal _ (startState 1) 1
      (Or.inr (Or.inr ⟨_, rfl, by decide⟩))).1⟩


end WinManager
